import Mathlib

/-!
The renderable of `Source/Library/Renderer/Renderable.cpp`.

A shallow embedding of `library::Renderable`: the tangent-space generator,
the buffer provisioning routine, the material/mesh binding and the transform
operations, followed by the properties established about them.

Conventions of the embedding:

* `FLOAT` arithmetic is read over a field `F`, the square root being passed
  in with the `DirectXMath` record; division is the division of `F`.
* `UINT`/`WORD` values are natural numbers; `HRESULT` is an integer and
  `FAILED hr` is `hr < 0`.
* `std::vector` is `List`; `operator[]` is a checked lookup, an access outside
  the vector (undefined behaviour in the source) makes the operation return
  `none`.
* The `std::shared_ptr<Material>` entries of the material table are not null;
  the textures and shaders they and the renderable point to are opaque
  handles, `none` being the null pointer.
* The geometry source (`getVertices`, `getIndices`, `GetNumVertices`,
  `GetNumIndices`, pure virtual in the source) is the pair of lists
  `vertices`, `indices` held in the state, the counts being their lengths.
-/

namespace library

/-! ## Data model -/

/-- Two floats, as DirectXMath's `XMFLOAT2`. -/
structure XMFLOAT2 (F : Type) where
  x : F
  y : F
deriving DecidableEq, Repr

/-- Three floats, as DirectXMath's `XMFLOAT3`. -/
structure XMFLOAT3 (F : Type) where
  x : F
  y : F
  z : F
deriving DecidableEq, Repr

/-- Four floats, as DirectXMath's `XMFLOAT4` (and `XMVECTOR`). -/
structure XMFLOAT4 (F : Type) where
  x : F
  y : F
  z : F
  w : F
deriving DecidableEq, Repr

/-- Modelled from the spec: the vertex record `SimpleVertex` (declared in a header that is
not part of the sources): position, texture coordinate and normal. -/
structure SimpleVertex (F : Type) where
  Position : XMFLOAT3 F
  TexCoord : XMFLOAT2 F
  Normal : XMFLOAT3 F
deriving DecidableEq, Repr

/-- Modelled from the spec: the per-vertex record `NormalData` (declared in a header that
is not part of the sources): a tangent and a bitangent. -/
structure NormalData (F : Type) where
  Tangent : XMFLOAT3 F
  Bitangent : XMFLOAT3 F
deriving DecidableEq, Repr

/-- The value-initialised `NormalData()`: every component is zero. -/
def NormalData.zero {F : Type} [Zero F] : NormalData F :=
  ⟨⟨0, 0, 0⟩, ⟨0, 0, 0⟩⟩

/-- The functions of DirectXMath and of the C library that the renderable calls,
over the scalar type `F` and the matrix type `M`. -/
structure DirectXMath (F M : Type) where
  sqrt : F → F
  XMMatrixRotationX : F → M
  XMMatrixRotationY : F → M
  XMMatrixRotationZ : F → M
  XMMatrixRotationRollPitchYaw : F → F → F → M
  XMMatrixScaling : F → F → F → M
  XMMatrixTranslationFromVector : XMFLOAT4 F → M

/-! ## Tangent-space generator -/

/-- The body of `Renderable::calculateTangentBitangent`; the two out-parameters are
returned as a pair `(tangent, bitangent)`. -/
def calculateTangentBitangent {F : Type} [Field F] (sqrt : F → F)
    (v1 v2 v3 : SimpleVertex F) : XMFLOAT3 F × XMFLOAT3 F :=
  -- Calculate the two vectors for this face.
  let vector1 : XMFLOAT3 F :=
    ⟨v2.Position.x - v1.Position.x, v2.Position.y - v1.Position.y, v2.Position.z - v1.Position.z⟩
  let vector2 : XMFLOAT3 F :=
    ⟨v3.Position.x - v1.Position.x, v3.Position.y - v1.Position.y, v3.Position.z - v1.Position.z⟩
  -- Calculate the tu and tv texture space vectors.
  let tuVector : XMFLOAT2 F := ⟨v2.TexCoord.x - v1.TexCoord.x, v3.TexCoord.x - v1.TexCoord.x⟩
  let tvVector : XMFLOAT2 F := ⟨v2.TexCoord.y - v1.TexCoord.y, v3.TexCoord.y - v1.TexCoord.y⟩
  -- Calculate the denominator of the tangent/binormal equation.
  let den : F := 1 / (tuVector.x * tvVector.y - tuVector.y * tvVector.x)
  let tangent : XMFLOAT3 F :=
    ⟨(tvVector.y * vector1.x - tvVector.x * vector2.x) * den,
     (tvVector.y * vector1.y - tvVector.x * vector2.y) * den,
     (tvVector.y * vector1.z - tvVector.x * vector2.z) * den⟩
  let bitangent : XMFLOAT3 F :=
    ⟨(tuVector.x * vector2.x - tuVector.y * vector1.x) * den,
     (tuVector.x * vector2.y - tuVector.y * vector1.y) * den,
     (tuVector.x * vector2.z - tuVector.y * vector1.z) * den⟩
  -- Calculate the length of this normal, normalize it and then store it.
  let length : F :=
    sqrt ((tangent.x * tangent.x) + (tangent.y * tangent.y) + (tangent.z * tangent.z))
  let tangent : XMFLOAT3 F := ⟨tangent.x / length, tangent.y / length, tangent.z / length⟩
  let length : F :=
    sqrt ((bitangent.x * bitangent.x) + (bitangent.y * bitangent.y) + (bitangent.z * bitangent.z))
  let bitangent : XMFLOAT3 F :=
    ⟨bitangent.x / length, bitangent.y / length, bitangent.z / length⟩
  (tangent, bitangent)

/-- The two stores `m_aNormalData[k].Tangent = tangent; m_aNormalData[k].Bitangent =
Bitangent;` of the generator; `none` when `k` is not an index of the vector. -/
def storeTangentBitangent {F : Type} (aNormalData : List (NormalData F)) (k : Nat)
    (tangent Bitangent : XMFLOAT3 F) : Option (List (NormalData F)) :=
  match aNormalData[k]? with
  | none => none
  | some e =>
    let aNormalData := aNormalData.set k { e with Tangent := tangent }
    match aNormalData[k]? with
    | none => none
    | some e => some (aNormalData.set k { e with Bitangent := Bitangent })

/-- One iteration, for face `i`, of the loop of `Renderable::calculateNormalMapVectors`. -/
def calculateNormalMapVectors.face {F : Type} [Field F] (sqrt : F → F)
    (aVertices : List (SimpleVertex F)) (aIndices : List Nat)
    (aNormalData : List (NormalData F)) (i : Nat) : Option (List (NormalData F)) :=
  match aIndices[i * 3]?, aIndices[i * 3 + 1]?, aIndices[i * 3 + 2]? with
  | some i0, some i1, some i2 =>
    match aVertices[i0]?, aVertices[i1]?, aVertices[i2]? with
    | some v1, some v2, some v3 =>
      let tb := calculateTangentBitangent sqrt v1 v2 v3
      (storeTangentBitangent aNormalData i0 tb.1 tb.2).bind fun nd =>
      (storeTangentBitangent nd i1 tb.1 tb.2).bind fun nd =>
      storeTangentBitangent nd i2 tb.1 tb.2
    | _, _, _ => none
  | _, _, _ => none

/-- The call `v.resize(n, value)` of `std::vector`. -/
def resize {α : Type} (v : List α) (n : Nat) (value : α) : List α :=
  v.take n ++ List.replicate (n - v.length) value

/-! ## The renderable -/

/-- Windows status code: a signed 32-bit integer. -/
abbrev HRESULT := Int

/-- The status `S_OK`. -/
def S_OK : HRESULT := 0

/-- The status `E_FAIL` (`0x80004005` read as a signed 32-bit integer). -/
def E_FAIL : HRESULT := -2147467259

/-- The macro `FAILED(hr)`. -/
def FAILED (hr : HRESULT) : Bool := decide (hr < 0)

/-- Modelled from the spec: the material descriptor `Material` (declared in a header that
is not part of the sources): an optional diffuse texture and an optional normal-map
texture, textures being opaque handles. -/
structure Material where
  pDiffuse : Option Nat
  pNormal : Option Nat
deriving DecidableEq, Repr

/-- Modelled from the spec: the mesh entry `BasicMeshEntry` (declared in a header that is
not part of the sources): offsets and counts into the shared buffers and the index
of the bound material. -/
structure BasicMeshEntry where
  uNumIndices : Nat
  uBaseVertex : Nat
  uBaseIndex : Nat
  uMaterialIndex : Nat
deriving DecidableEq, Repr

/-- The fields of `D3D11_BUFFER_DESC` that the routine sets. -/
structure D3D11_BUFFER_DESC where
  ByteWidth : Nat
  Usage : Nat
  BindFlags : Nat
  CPUAccessFlags : Nat
  MiscFlags : Nat
deriving DecidableEq, Repr

/-- The value `D3D11_USAGE_DEFAULT`. -/
def D3D11_USAGE_DEFAULT : Nat := 0
/-- The value `D3D11_BIND_VERTEX_BUFFER`. -/
def D3D11_BIND_VERTEX_BUFFER : Nat := 1
/-- The value `D3D11_BIND_INDEX_BUFFER`. -/
def D3D11_BIND_INDEX_BUFFER : Nat := 2
/-- The value `D3D11_BIND_CONSTANT_BUFFER`. -/
def D3D11_BIND_CONSTANT_BUFFER : Nat := 4

/-- The record sizes that `sizeof` yields for the types declared outside the sources. -/
structure Layout where
  sizeofSimpleVertex : Nat
  sizeofNormalData : Nat
  sizeofCBChangesEveryFrame : Nat
deriving DecidableEq, Repr

/-- The size `sizeof(WORD)`. -/
def sizeofWORD : Nat := 2

/-- The memory that `D3D11_SUBRESOURCE_DATA::pSysMem` points to: the array whose
`data()` pointer is handed over, with all its entries. -/
inductive SysMem (F : Type) where
  | vertices (a : List (SimpleVertex F))
  | normalData (a : List (NormalData F))
  | indices (a : List Nat)
deriving DecidableEq, Repr

/-- The member that receives the buffer of a `CreateBuffer` call. -/
inductive BufferSlot where
  | m_vertexBuffer
  | m_normalBuffer
  | m_indexBuffer
  | m_constantBuffer
deriving DecidableEq, Repr

/-- One call `pDevice->CreateBuffer(&bd, pInitialData, ppBuffer)` with the values of its
arguments at the time of the call. -/
structure CreateBufferCall (F : Type) where
  bd : D3D11_BUFFER_DESC
  pInitialData : Option (SysMem F)
  ppBuffer : BufferSlot
deriving DecidableEq, Repr

/-- The device: it answers every buffer-creation request with a status. -/
abbrev ID3D11Device (F : Type) := CreateBufferCall F → HRESULT

/-- A created buffer, recorded as the request that created it. -/
structure ID3D11Buffer (F : Type) where
  created : CreateBufferCall F
deriving DecidableEq, Repr

/-- The state of a `Renderable`: its data members, and the geometry that the pure
virtual accessors of the geometry source return. -/
structure Renderable (F M : Type) where
  vertices : List (SimpleVertex F)
  indices : List Nat
  m_vertexBuffer : Option (ID3D11Buffer F)
  m_indexBuffer : Option (ID3D11Buffer F)
  m_constantBuffer : Option (ID3D11Buffer F)
  m_normalBuffer : Option (ID3D11Buffer F)
  m_aMeshes : List BasicMeshEntry
  m_aMaterials : List Material
  m_vertexShader : Option Nat
  m_pixelShader : Option Nat
  m_outputColor : XMFLOAT4 F
  m_world : M
  m_bHasNormalMap : Bool
  m_aNormalData : List (NormalData F)

namespace Renderable

variable {F M : Type}

/-- The constructor `Renderable::Renderable(outputColor)`, for the geometry of the
deriving class. -/
def new [One M] (vertices : List (SimpleVertex F)) (indices : List Nat)
    (outputColor : XMFLOAT4 F) : Renderable F M :=
  { vertices := vertices
    indices := indices
    m_outputColor := outputColor
    m_world := 1
    m_vertexBuffer := none
    m_indexBuffer := none
    m_constantBuffer := none
    m_normalBuffer := none
    m_vertexShader := none
    m_pixelShader := none
    m_bHasNormalMap := false
    m_aMeshes := []
    m_aMaterials := []
    m_aNormalData := [] }

/-- The accessor `getVertices()`. -/
def getVertices (r : Renderable F M) : List (SimpleVertex F) := r.vertices
/-- The accessor `getIndices()`. -/
def getIndices (r : Renderable F M) : List Nat := r.indices
/-- The accessor `GetNumVertices()`. -/
def GetNumVertices (r : Renderable F M) : Nat := r.vertices.length
/-- The accessor `GetNumIndices()`. -/
def GetNumIndices (r : Renderable F M) : Nat := r.indices.length
/-- The accessor `GetNumMeshes()`. -/
def GetNumMeshes (r : Renderable F M) : Nat := r.m_aMeshes.length
/-- The accessor `GetNumMaterials()`. -/
def GetNumMaterials (r : Renderable F M) : Nat := r.m_aMaterials.length

/-- The predicate `Renderable::HasTexture`. -/
def HasTexture (r : Renderable F M) : Bool :=
  if r.GetNumMaterials > 0 then true else false

/-- The accessor `Renderable::HasNormalMap`. -/
def HasNormalMap (r : Renderable F M) : Bool := r.m_bHasNormalMap

/-- The accessor `Renderable::GetWorldMatrix`. -/
def GetWorldMatrix (r : Renderable F M) : M := r.m_world

/-- The method `Renderable::calculateNormalMapVectors`; `none` when an array is
accessed outside its bounds. -/
def calculateNormalMapVectors [Field F] (dx : DirectXMath F M) (r : Renderable F M) :
    Option (Renderable F M) :=
  let uNumFaces := r.GetNumIndices / 3
  let aVertices := r.getVertices
  let aIndices := r.getIndices
  let aNormalData := resize r.m_aNormalData r.GetNumVertices NormalData.zero
  ((List.range uNumFaces).foldlM
      (calculateNormalMapVectors.face dx.sqrt aVertices aIndices) aNormalData).map
    fun nd => { r with m_aNormalData := nd }

/-- The method `Renderable::AddMaterial`. -/
def AddMaterial (r : Renderable F M) (material : Material) : Renderable F M :=
  { r with m_aMaterials := r.m_aMaterials ++ [material] }

/-- The method `Renderable::SetMaterialOfMesh`; `none` when a table is accessed outside
its bounds. -/
def SetMaterialOfMesh (r : Renderable F M) (uMeshIndex uMaterialIndex : Nat) :
    Option (HRESULT × Renderable F M) :=
  if uMeshIndex ≥ r.m_aMeshes.length || uMaterialIndex ≥ r.m_aMaterials.length then
    some (E_FAIL, r)
  else
    match r.m_aMeshes[uMeshIndex]? with
    | none => none
    | some e =>
      let r := { r with
        m_aMeshes := r.m_aMeshes.set uMeshIndex { e with uMaterialIndex := uMaterialIndex } }
      match r.m_aMaterials[uMeshIndex]? with
      | none => none
      | some m =>
        if m.pNormal.isSome then some (S_OK, { r with m_bHasNormalMap := true })
        else some (S_OK, r)

/-- The method `Renderable::SetVertexShader`. -/
def SetVertexShader (r : Renderable F M) (vertexShader : Option Nat) : Renderable F M :=
  { r with m_vertexShader := vertexShader }

/-- The method `Renderable::SetPixelShader`. -/
def SetPixelShader (r : Renderable F M) (pixelShader : Option Nat) : Renderable F M :=
  { r with m_pixelShader := pixelShader }

/-- The method `Renderable::RotateX`. -/
def RotateX [Mul M] (dx : DirectXMath F M) (r : Renderable F M) (angle : F) : Renderable F M :=
  { r with m_world := r.m_world * dx.XMMatrixRotationX angle }

/-- The method `Renderable::RotateY`. -/
def RotateY [Mul M] (dx : DirectXMath F M) (r : Renderable F M) (angle : F) : Renderable F M :=
  { r with m_world := r.m_world * dx.XMMatrixRotationY angle }

/-- The method `Renderable::RotateZ`. -/
def RotateZ [Mul M] (dx : DirectXMath F M) (r : Renderable F M) (angle : F) : Renderable F M :=
  { r with m_world := r.m_world * dx.XMMatrixRotationZ angle }

/-- The method `Renderable::RotateRollPitchYaw`. -/
def RotateRollPitchYaw [Mul M] (dx : DirectXMath F M) (r : Renderable F M)
    (pitch yaw roll : F) : Renderable F M :=
  { r with m_world := r.m_world * dx.XMMatrixRotationRollPitchYaw pitch yaw roll }

/-- The method `Renderable::Scale`. -/
def Scale [Mul M] (dx : DirectXMath F M) (r : Renderable F M)
    (scaleX scaleY scaleZ : F) : Renderable F M :=
  { r with m_world := r.m_world * dx.XMMatrixScaling scaleX scaleY scaleZ }

/-- The method `Renderable::Translate`. -/
def Translate [Mul M] (dx : DirectXMath F M) (r : Renderable F M)
    (offset : XMFLOAT4 F) : Renderable F M :=
  { r with m_world := r.m_world * dx.XMMatrixTranslationFromVector offset }

/-- One of the six transform calls, with its arguments. -/
inductive Transform (F : Type) where
  | RotateX (angle : F)
  | RotateY (angle : F)
  | RotateZ (angle : F)
  | RotateRollPitchYaw (pitch yaw roll : F)
  | Scale (scaleX scaleY scaleZ : F)
  | Translate (offset : XMFLOAT4 F)

/-- The matrix that a transform call multiplies onto the world matrix. -/
def Transform.delta (dx : DirectXMath F M) : Transform F → M
  | .RotateX angle => dx.XMMatrixRotationX angle
  | .RotateY angle => dx.XMMatrixRotationY angle
  | .RotateZ angle => dx.XMMatrixRotationZ angle
  | .RotateRollPitchYaw pitch yaw roll => dx.XMMatrixRotationRollPitchYaw pitch yaw roll
  | .Scale scaleX scaleY scaleZ => dx.XMMatrixScaling scaleX scaleY scaleZ
  | .Translate offset => dx.XMMatrixTranslationFromVector offset

/-- Performing a transform call on a renderable. -/
def transform [Mul M] (dx : DirectXMath F M) (r : Renderable F M) : Transform F → Renderable F M
  | .RotateX angle => r.RotateX dx angle
  | .RotateY angle => r.RotateY dx angle
  | .RotateZ angle => r.RotateZ dx angle
  | .RotateRollPitchYaw pitch yaw roll => r.RotateRollPitchYaw dx pitch yaw roll
  | .Scale scaleX scaleY scaleZ => r.Scale dx scaleX scaleY scaleZ
  | .Translate offset => r.Translate dx offset

end Renderable

/-! ## Buffer provisioning -/

/-- A call that the provisioning routine makes. -/
inductive Call (F : Type) where
  | CreateBuffer (c : CreateBufferCall F)
  | calculateNormalMapVectors
deriving DecidableEq, Repr

/-- What a run of the provisioning routine yields: the status it returns, the state it
leaves and the calls it made, in order. -/
structure InitializeResult (F M : Type) where
  hr : HRESULT
  state : Renderable F M
  calls : List (Call F)

/-- The buffer-creation requests among the calls of a run, in order. -/
def InitializeResult.requests {F M : Type} (res : InitializeResult F M) :
    List (CreateBufferCall F) :=
  res.calls.filterMap fun c =>
    match c with
    | .CreateBuffer q => some q
    | .calculateNormalMapVectors => none

/-- The method `Renderable::initialize(pDevice, pImmediateContext)`; `none` when the
tangent generator accesses an array outside its bounds. A successful `CreateBuffer`
stores the created buffer into the member it was given, a failed one leaves the
member as it was. -/
def Renderable.initialize {F M : Type} [Field F] (L : Layout) (dx : DirectXMath F M)
    (pDevice : ID3D11Device F) (r : Renderable F M) : Option (InitializeResult F M) :=
  let bd : D3D11_BUFFER_DESC :=
    { ByteWidth := r.GetNumVertices * L.sizeofSimpleVertex % 2 ^ 32
      Usage := D3D11_USAGE_DEFAULT
      BindFlags := D3D11_BIND_VERTEX_BUFFER
      CPUAccessFlags := 0
      MiscFlags := 0 }
  let c1 : CreateBufferCall F := ⟨bd, some (.vertices r.getVertices), .m_vertexBuffer⟩
  let hr := pDevice c1
  if FAILED hr then some ⟨hr, r, [.CreateBuffer c1]⟩
  else
    let r := { r with m_vertexBuffer := some ⟨c1⟩ }
    let generated : Option (Renderable F M × List (Call F)) :=
      if r.HasTexture && r.m_aNormalData.isEmpty then
        (r.calculateNormalMapVectors dx).map fun r => (r, [.calculateNormalMapVectors])
      else some (r, [])
    match generated with
    | none => none
    | some (r, g) =>
      let bd := { bd with ByteWidth := r.GetNumVertices * L.sizeofNormalData % 2 ^ 32 }
      let c2 : CreateBufferCall F := ⟨bd, some (.normalData r.m_aNormalData), .m_normalBuffer⟩
      let hr := pDevice c2
      if FAILED hr then some ⟨hr, r, .CreateBuffer c1 :: g ++ [.CreateBuffer c2]⟩
      else
        let r := { r with m_normalBuffer := some ⟨c2⟩ }
        let bd := { bd with
          Usage := D3D11_USAGE_DEFAULT
          ByteWidth := r.GetNumIndices * sizeofWORD % 2 ^ 32
          BindFlags := D3D11_BIND_INDEX_BUFFER
          CPUAccessFlags := 0 }
        let c3 : CreateBufferCall F := ⟨bd, some (.indices r.getIndices), .m_indexBuffer⟩
        let hr := pDevice c3
        if FAILED hr then
          some ⟨hr, r, .CreateBuffer c1 :: g ++ [.CreateBuffer c2, .CreateBuffer c3]⟩
        else
          let r := { r with m_indexBuffer := some ⟨c3⟩ }
          let bd := { bd with
            Usage := D3D11_USAGE_DEFAULT
            ByteWidth := L.sizeofCBChangesEveryFrame % 2 ^ 32
            BindFlags := D3D11_BIND_CONSTANT_BUFFER
            CPUAccessFlags := 0 }
          let c4 : CreateBufferCall F := ⟨bd, none, .m_constantBuffer⟩
          let hr := pDevice c4
          if FAILED hr then
            some ⟨hr, r, .CreateBuffer c1 :: g ++
              [.CreateBuffer c2, .CreateBuffer c3, .CreateBuffer c4]⟩
          else
            some ⟨hr, { r with m_constantBuffer := some ⟨c4⟩ }, .CreateBuffer c1 :: g ++
              [.CreateBuffer c2, .CreateBuffer c3, .CreateBuffer c4]⟩

/-! ## Operations as steps -/

/-- A call of a public operation of the renderable, with its arguments. -/
inductive Op (F : Type) where
  | AddMaterial (material : Material)
  | SetMaterialOfMesh (uMeshIndex uMaterialIndex : Nat)
  | Initialize (L : Layout) (pDevice : ID3D11Device F)
  | SetVertexShader (vertexShader : Option Nat)
  | SetPixelShader (pixelShader : Option Nat)
  | Transform (t : Renderable.Transform F)

/-- The state that an operation leaves; `none` when it accesses an array outside its
bounds. -/
def Op.run {F M : Type} [Field F] [Mul M] (dx : DirectXMath F M) (r : Renderable F M) :
    Op F → Option (Renderable F M)
  | .AddMaterial material => some (r.AddMaterial material)
  | .SetMaterialOfMesh uMeshIndex uMaterialIndex =>
    (r.SetMaterialOfMesh uMeshIndex uMaterialIndex).map Prod.snd
  | .Initialize L pDevice => ( Renderable.initialize L dx pDevice r).map InitializeResult.state
  | .SetVertexShader vertexShader => some (r.SetVertexShader vertexShader)
  | .SetPixelShader pixelShader => some (r.SetPixelShader pixelShader)
  | .Transform t => some (r.transform dx t)

/-! ## Notions used in the statements -/

/-- Face `i` of the index array contains vertex `v`. -/
def faceContains (aIndices : List Nat) (i v : Nat) : Prop :=
  aIndices[i * 3]? = some v ∨ aIndices[i * 3 + 1]? = some v ∨ aIndices[i * 3 + 2]? = some v

instance (aIndices : List Nat) (i v : Nat) : Decidable (faceContains aIndices i v) := by
  unfold faceContains; infer_instance

/-- The pair that `calculateTangentBitangent` returns for face `i`, as a `NormalData`. -/
def faceBasis {F : Type} [Field F] (sqrt : F → F) (aVertices : List (SimpleVertex F))
    (aIndices : List Nat) (i : Nat) : Option (NormalData F) :=
  match aIndices[i * 3]?, aIndices[i * 3 + 1]?, aIndices[i * 3 + 2]? with
  | some i0, some i1, some i2 =>
    match aVertices[i0]?, aVertices[i1]?, aVertices[i2]? with
    | some v1, some v2, some v3 =>
      some ⟨(calculateTangentBitangent sqrt v1 v2 v3).1, (calculateTangentBitangent sqrt v1 v2 v3).2⟩
    | _, _, _ => none
  | _, _, _ => none

/-- Euclidean length of a vector, the square root being `sqrt`. -/
def XMFLOAT3.length {F : Type} [Field F] (sqrt : F → F) (v : XMFLOAT3 F) : F :=
  sqrt (v.x * v.x + v.y * v.y + v.z * v.z)

/-- The three positions are not collinear: the cross product of the two edge vectors
from the first position is not the zero vector. -/
def NonCollinear {F : Type} [Field F] (p1 p2 p3 : XMFLOAT3 F) : Prop :=
  ¬ ((p2.y - p1.y) * (p3.z - p1.z) - (p2.z - p1.z) * (p3.y - p1.y) = 0 ∧
     (p2.z - p1.z) * (p3.x - p1.x) - (p2.x - p1.x) * (p3.z - p1.z) = 0 ∧
     (p2.x - p1.x) * (p3.y - p1.y) - (p2.y - p1.y) * (p3.x - p1.x) = 0)

instance {F : Type} [Field F] [DecidableEq F] (p1 p2 p3 : XMFLOAT3 F) :
    Decidable (NonCollinear p1 p2 p3) := by
  unfold NonCollinear; infer_instance

/-- The determinant of the two texture-coordinate deltas of a triangle, the divisor of
the tangent equation. -/
def uvDeterminant {F : Type} [Field F] (v1 v2 v3 : SimpleVertex F) : F :=
  (v2.TexCoord.x - v1.TexCoord.x) * (v3.TexCoord.y - v1.TexCoord.y) -
    (v3.TexCoord.x - v1.TexCoord.x) * (v2.TexCoord.y - v1.TexCoord.y)

/-- The three texture coordinates of a triangle are pairwise distinct. -/
def DistinctTexCoords {F : Type} (v1 v2 v3 : SimpleVertex F) : Prop :=
  v1.TexCoord ≠ v2.TexCoord ∧ v1.TexCoord ≠ v3.TexCoord ∧ v2.TexCoord ≠ v3.TexCoord

/-- The arguments of the vertex-buffer request of the provisioning routine. -/
def Renderable.vertexBufferCall {F M : Type} (L : Layout) (r : Renderable F M) :
    CreateBufferCall F :=
  ⟨⟨r.vertices.length * L.sizeofSimpleVertex % 2 ^ 32, D3D11_USAGE_DEFAULT,
    D3D11_BIND_VERTEX_BUFFER, 0, 0⟩, some (.vertices r.vertices), .m_vertexBuffer⟩

/-- The arguments of the normal-buffer request, for the tangent store `nd` at the time of
the request. -/
def Renderable.normalBufferCall {F M : Type} (L : Layout) (r : Renderable F M)
    (nd : List (NormalData F)) : CreateBufferCall F :=
  ⟨⟨r.vertices.length * L.sizeofNormalData % 2 ^ 32, D3D11_USAGE_DEFAULT,
    D3D11_BIND_VERTEX_BUFFER, 0, 0⟩, some (.normalData nd), .m_normalBuffer⟩

/-- The arguments of the index-buffer request. -/
def Renderable.indexBufferCall {F M : Type} (r : Renderable F M) : CreateBufferCall F :=
  ⟨⟨r.indices.length * sizeofWORD % 2 ^ 32, D3D11_USAGE_DEFAULT,
    D3D11_BIND_INDEX_BUFFER, 0, 0⟩, some (.indices r.indices), .m_indexBuffer⟩

/-- The arguments of the constant-buffer request. -/
def constantBufferCall (F : Type) (L : Layout) : CreateBufferCall F :=
  ⟨⟨L.sizeofCBChangesEveryFrame % 2 ^ 32, D3D11_USAGE_DEFAULT,
    D3D11_BIND_CONSTANT_BUFFER, 0, 0⟩, none, .m_constantBuffer⟩

/-- The gate in front of the tangent generator: the renderable is textured and its
tangent store is empty. -/
def Renderable.generatorGate {F M : Type} (r : Renderable F M) : Prop :=
  r.HasTexture = true ∧ r.m_aNormalData = []

instance {F M : Type} (r : Renderable F M) : Decidable r.generatorGate := by
  unfold Renderable.generatorGate
  cases r.m_aNormalData with
  | nil => simp only [and_true]; infer_instance
  | cons a l => exact isFalse (by simp)

/-- The length invariant of the tangent store: it is empty or has one entry per vertex. -/
def Renderable.NormalDataInvariant {F M : Type} (r : Renderable F M) : Prop :=
  r.m_aNormalData.length = 0 ∨ r.m_aNormalData.length = r.GetNumVertices

/-- The members that receive the four buffers, in the order of the requests. -/
def bufferSlotOrder : List BufferSlot :=
  [.m_vertexBuffer, .m_normalBuffer, .m_indexBuffer, .m_constantBuffer]

instance {F : Type} [DecidableEq F] (v1 v2 v3 : SimpleVertex F) :
    Decidable (DistinctTexCoords v1 v2 v3) := by
  unfold DistinctTexCoords; infer_instance

instance {F M : Type} (r : Renderable F M) : Decidable r.NormalDataInvariant := by
  unfold Renderable.NormalDataInvariant; infer_instance

/-! ## Concrete inputs -/

/-- DirectXMath over the rationals, with the exact square root of rational squares and a
one-element matrix type. -/
def ratMath : DirectXMath ℚ Unit :=
  { sqrt := Rat.sqrt
    XMMatrixRotationX := fun _ => ()
    XMMatrixRotationY := fun _ => ()
    XMMatrixRotationZ := fun _ => ()
    XMMatrixRotationRollPitchYaw := fun _ _ _ => ()
    XMMatrixScaling := fun _ _ _ => ()
    XMMatrixTranslationFromVector := fun _ => () }

/-- A vertex with the given position and texture coordinate, its normal along `z`. -/
def vertexAt {F : Type} [Field F] (px py pz tu tv : F) : SimpleVertex F :=
  ⟨⟨px, py, pz⟩, ⟨tu, tv⟩, ⟨0, 0, 1⟩⟩

/-- A quad of two triangles `(0, 1, 2)` and `(0, 2, 3)` sharing the edge `0 - 2`. -/
def quad : Renderable ℚ Unit :=
  Renderable.new
    [vertexAt 0 0 0 0 0, vertexAt 1 0 0 1 0, vertexAt 1 1 0 1 1, vertexAt 1 1 (1 / 2) 0 1]
    [0, 1, 2, 0, 2, 3] ⟨1, 1, 1, 1⟩

/-- A material with a diffuse texture only. -/
def plainMaterial : Material := ⟨some 1, none⟩

/-- A material with a diffuse texture and a normal map. -/
def normalMappedMaterial : Material := ⟨some 2, some 3⟩

/-- A mesh entry of one triangle starting at index `uBaseIndex`, not yet bound to a
material (the index is the all-ones `UINT`). -/
def unboundMesh (uBaseIndex : Nat) : BasicMeshEntry := ⟨3, 0, uBaseIndex, 4294967295⟩

/-- The quad with two meshes and the plain material as its only material. -/
def quadOneMaterial : Renderable ℚ Unit :=
  { quad with m_aMeshes := [unboundMesh 0, unboundMesh 3], m_aMaterials := [plainMaterial] }

/-- The quad with one mesh and two materials, the second one normal-mapped. -/
def quadOneMesh : Renderable ℚ Unit :=
  { quad with m_aMeshes := [unboundMesh 0],
              m_aMaterials := [plainMaterial, normalMappedMaterial] }

/-- Record sizes of a vertex of eight floats, a `NormalData` of six floats and a constant
record of ninety-six bytes. -/
def exampleLayout : Layout := ⟨32, 24, 96⟩

/-- A device that creates every buffer. -/
def willingDevice : ID3D11Device ℚ := fun _ => S_OK

/-- A device that creates every buffer but the one for the member `slot`. -/
def deviceFailingAt (slot : BufferSlot) : ID3D11Device ℚ :=
  fun c => if c.ppBuffer = slot then E_FAIL else S_OK

/-- The quad with one mesh and the normal-mapped material as its only material. -/
def quadTextured : Renderable ℚ Unit :=
  { quad with m_aMeshes := [unboundMesh 0], m_aMaterials := [normalMappedMaterial] }

/-- The quad with two meshes, a normal-mapped and a plain material, and the flag set. -/
def quadFlagged : Renderable ℚ Unit :=
  { quad with m_aMeshes := [unboundMesh 0, unboundMesh 3],
              m_aMaterials := [normalMappedMaterial, plainMaterial],
              m_bHasNormalMap := true }

/-- DirectXMath with symbolic matrices: every delta matrix is a letter of the free monoid
over six letters, one per transform operation, so that a product records the order of
its factors. -/
def symbolicMath : DirectXMath ℚ (FreeMonoid (Fin 6)) :=
  { sqrt := Rat.sqrt
    XMMatrixRotationX := fun _ => FreeMonoid.of 0
    XMMatrixRotationY := fun _ => FreeMonoid.of 1
    XMMatrixRotationZ := fun _ => FreeMonoid.of 2
    XMMatrixRotationRollPitchYaw := fun _ _ _ => FreeMonoid.of 3
    XMMatrixScaling := fun _ _ _ => FreeMonoid.of 4
    XMMatrixTranslationFromVector := fun _ => FreeMonoid.of 5 }

/-- The quad with three meshes and two materials. -/
def quadThreeMeshes : Renderable ℚ Unit :=
  { quad with m_aMeshes := [unboundMesh 0, unboundMesh 3, unboundMesh 0],
              m_aMaterials := [plainMaterial, normalMappedMaterial] }

/-- The quad with two more indices after its two triangles, the last of them not the
index of a vertex. -/
def quadTrailing : Renderable ℚ Unit :=
  { quad with indices := [0, 1, 2, 0, 2, 3, 1, 9] }

/-- The quad with one more index, of a vertex, after its two triangles. -/
def quadSeven : Renderable ℚ Unit :=
  { quad with indices := [0, 1, 2, 0, 2, 3, 1] }

/-! ## Tangent-space generator: the loop -/

theorem storeTangentBitangent_eq_set {F : Type} (nd : List (NormalData F)) (k : Nat)
    (t b : XMFLOAT3 F) (hk : k < nd.length) :
    storeTangentBitangent nd k t b = some (nd.set k ⟨t, b⟩) := by
  have h1 : (nd.set k ⟨t, nd[k].Bitangent⟩)[k]? = some ⟨t, nd[k].Bitangent⟩ := by
    rw [List.getElem?_set]; simp [hk]
  simp [storeTangentBitangent, List.getElem?_eq_getElem hk, h1, List.set_set]

theorem storeTangentBitangent_eq_none {F : Type} (nd : List (NormalData F)) (k : Nat)
    (t b : XMFLOAT3 F) (hk : nd.length ≤ k) :
    storeTangentBitangent nd k t b = none := by
  simp [storeTangentBitangent, List.getElem?_eq_none hk]

theorem faceBasis_isSome {F : Type} [Field F] (sqrt : F → F) (aVertices : List (SimpleVertex F))
    (aIndices : List Nat) (i : Nat) (hi : i * 3 + 2 < aIndices.length)
    (hidx : ∀ k ∈ aIndices, k < aVertices.length) :
    ∃ i0 i1 i2 v1 v2 v3, aIndices[i * 3]? = some i0 ∧ aIndices[i * 3 + 1]? = some i1 ∧
      aIndices[i * 3 + 2]? = some i2 ∧ aVertices[i0]? = some v1 ∧ aVertices[i1]? = some v2 ∧
      aVertices[i2]? = some v3 ∧ i0 < aVertices.length ∧ i1 < aVertices.length ∧
      i2 < aVertices.length ∧
      faceBasis sqrt aVertices aIndices i =
        some ⟨(calculateTangentBitangent sqrt v1 v2 v3).1,
              (calculateTangentBitangent sqrt v1 v2 v3).2⟩ := by
  have h0 : i * 3 < aIndices.length := by omega
  have h1 : i * 3 + 1 < aIndices.length := by omega
  have b0 : aIndices[i * 3] < aVertices.length := hidx _ (List.getElem_mem _)
  have b1 : aIndices[i * 3 + 1] < aVertices.length := hidx _ (List.getElem_mem _)
  have b2 : aIndices[i * 3 + 2] < aVertices.length := hidx _ (List.getElem_mem _)
  refine ⟨aIndices[i * 3], aIndices[i * 3 + 1], aIndices[i * 3 + 2],
    aVertices[aIndices[i * 3]], aVertices[aIndices[i * 3 + 1]], aVertices[aIndices[i * 3 + 2]],
    List.getElem?_eq_getElem h0, List.getElem?_eq_getElem h1, List.getElem?_eq_getElem hi,
    List.getElem?_eq_getElem b0, List.getElem?_eq_getElem b1, List.getElem?_eq_getElem b2,
    b0, b1, b2, ?_⟩
  simp [faceBasis, List.getElem?_eq_getElem h0, List.getElem?_eq_getElem h1,
    List.getElem?_eq_getElem hi, List.getElem?_eq_getElem b0, List.getElem?_eq_getElem b1,
    List.getElem?_eq_getElem b2]

/-- One iteration on an in-range face: it succeeds, keeps the length, writes the basis
of the face at its three vertices and leaves every other entry alone. -/
theorem face_spec {F : Type} [Field F] (sqrt : F → F) (aVertices : List (SimpleVertex F))
    (aIndices : List Nat) (nd : List (NormalData F)) (i : Nat)
    (hi : i * 3 + 2 < aIndices.length) (hidx : ∀ k ∈ aIndices, k < aVertices.length)
    (hlen : nd.length = aVertices.length) :
    ∃ nd1, calculateNormalMapVectors.face sqrt aVertices aIndices nd i = some nd1 ∧
      nd1.length = nd.length ∧
      ∀ v, v < nd.length →
        (faceContains aIndices i v → nd1[v]? = faceBasis sqrt aVertices aIndices i) ∧
        (¬ faceContains aIndices i v → nd1[v]? = nd[v]?) := by
  obtain ⟨i0, i1, i2, v1, v2, v3, e0, e1, e2, f0, f1, f2, b0, b1, b2, hb⟩ :=
    faceBasis_isSome sqrt aVertices aIndices i hi hidx
  generalize htb : calculateTangentBitangent sqrt v1 v2 v3 = tb at hb
  refine ⟨((nd.set i0 ⟨tb.1, tb.2⟩).set i1 ⟨tb.1, tb.2⟩).set i2 ⟨tb.1, tb.2⟩, ?_, by simp, ?_⟩
  · simp only [calculateNormalMapVectors.face, e0, e1, e2, f0, f1, f2, htb]
    rw [storeTangentBitangent_eq_set _ _ _ _ (by omega)]
    simp only [Option.some_bind]
    rw [storeTangentBitangent_eq_set _ _ _ _ (by simp; omega)]
    simp only [Option.some_bind]
    rw [storeTangentBitangent_eq_set _ _ _ _ (by simp; omega)]
  · intro v hv
    simp only [faceContains, e0, e1, e2, Option.some.injEq, hb]
    constructor
    · intro hc
      by_cases h2 : i2 = v
      · subst h2; simp [List.getElem?_set, hv]
      · by_cases h1 : i1 = v
        · subst h1; simp [List.getElem?_set, h2, hlen, b1]
        · have h0 : i0 = v := by tauto
          subst h0; simp [List.getElem?_set, h2, h1, hlen, b0]
    · intro hc
      push_neg at hc
      simp [List.getElem?_set, hc.1, hc.2.1, hc.2.2]

/-- The loop over the first `n` faces: it succeeds, keeps the length, every vertex of
one of these faces carries the basis of the last such face, every other entry is
as before. -/
theorem loop_spec {F : Type} [Field F] (sqrt : F → F) (aVertices : List (SimpleVertex F))
    (aIndices : List Nat) (nd0 : List (NormalData F))
    (hidx : ∀ k ∈ aIndices, k < aVertices.length) (hlen : nd0.length = aVertices.length)
    (n : Nat) (hn : n ≤ aIndices.length / 3) :
    ∃ nd, (List.range n).foldlM (calculateNormalMapVectors.face sqrt aVertices aIndices) nd0
        = some nd ∧ nd.length = nd0.length ∧
      ∀ v, v < nd0.length →
        (∀ i, i < n → faceContains aIndices i v →
          (∀ j, i < j → j < n → ¬ faceContains aIndices j v) →
          nd[v]? = faceBasis sqrt aVertices aIndices i) ∧
        ((∀ i, i < n → ¬ faceContains aIndices i v) → nd[v]? = nd0[v]?) := by
  induction n with
  | zero => exact ⟨nd0, by simp, rfl, fun v _ => ⟨fun i hi => absurd hi (by omega), fun _ => rfl⟩⟩
  | succ n ih =>
    obtain ⟨nd, hrun, hl, hnd⟩ := ih (by omega)
    have hi : n * 3 + 2 < aIndices.length := by omega
    obtain ⟨nd1, hface, hl1, hnd1⟩ :=
      face_spec sqrt aVertices aIndices nd n hi hidx (by omega)
    refine ⟨nd1, ?_, by omega, ?_⟩
    · rw [List.range_succ, List.foldlM_append, hrun]
      simp [hface]
    · intro v hv
      obtain ⟨hlast, hnone⟩ := hnd v hv
      obtain ⟨hin, hout⟩ := hnd1 v (by omega)
      constructor
      · intro i hiN hc hno
        by_cases hcn : faceContains aIndices n v
        · have : i = n := by
            by_contra hne
            exact hno n (by omega) (by omega) hcn
          subst this
          exact hin hcn
        · have hne : i ≠ n := fun h => hcn (h ▸ hc)
          rw [hout hcn]
          exact hlast i (by omega) hc (fun j hj hjn => hno j hj (by omega))
      · intro hno
        rw [hout (hno n (by omega))]
        exact hnone (fun i hi => hno i (by omega))

theorem length_resize {α : Type} (v : List α) (n : Nat) (value : α) :
    (resize v n value).length = n := by
  simp [resize]; omega

theorem getElem?_resize {α : Type} (v : List α) (n : Nat) (value : α) (k : Nat) (hk : k < n) :
    (resize v n value)[k]? = some (v[k]?.getD value) := by
  unfold resize
  by_cases h : k < v.length
  · rw [List.getElem?_append_left (by simp; omega)]
    simp [List.getElem?_take, hk, h]
  · rw [List.getElem?_append_right (by simp; omega)]
    simp [List.getElem?_eq_none (Nat.le_of_not_lt h)]
    rw [List.getElem?_replicate]
    have : min n v.length = v.length := by omega
    simp [this]; omega

/-! ## Last writer wins -/

/-- C1. Last-writer-wins: when every index is below the vertex count, the generator
returns, and afterwards the entry of every vertex `v` that occurs in a face is the
(tangent, bitangent) pair that `calculateTangentBitangent` returns for the last face,
in index order, that contains `v`; the entry of a vertex that occurs in no face is what
`resize` left there, which is the default `NormalData` when the store was empty at the
call (as it is at the only call of the generator). -/
theorem calculateNormalMapVectors_last_writer_wins {F M : Type} [Field F]
    (dx : DirectXMath F M) (r : Renderable F M)
    (hidx : ∀ k ∈ r.indices, k < r.vertices.length) :
    ∃ r1, r.calculateNormalMapVectors dx = some r1 ∧
      r1.m_aNormalData.length = r.vertices.length ∧
      ∀ v, v < r.vertices.length →
        (∀ i, i < r.indices.length / 3 → faceContains r.indices i v →
          (∀ j, i < j → j < r.indices.length / 3 → ¬ faceContains r.indices j v) →
          (faceBasis dx.sqrt r.vertices r.indices i).isSome = true ∧
          r1.m_aNormalData[v]? = faceBasis dx.sqrt r.vertices r.indices i) ∧
        ((∀ i, i < r.indices.length / 3 → ¬ faceContains r.indices i v) →
          r1.m_aNormalData[v]? = some (r.m_aNormalData[v]?.getD NormalData.zero) ∧
          (r.m_aNormalData = [] → r1.m_aNormalData[v]? = some NormalData.zero)) := by
  obtain ⟨nd, hrun, hl, hnd⟩ := loop_spec dx.sqrt r.vertices r.indices
    (resize r.m_aNormalData r.vertices.length NormalData.zero) hidx (length_resize _ _ _)
    (r.indices.length / 3) (Nat.le_refl _)
  rw [length_resize] at hl hnd
  refine ⟨{ r with m_aNormalData := nd }, ?_, hl, ?_⟩
  · simp [Renderable.calculateNormalMapVectors, Renderable.GetNumIndices,
      Renderable.GetNumVertices, Renderable.getVertices, Renderable.getIndices, hrun]
  · intro v hv
    obtain ⟨hlast, hnone⟩ := hnd v hv
    refine ⟨fun i hi hc hno => ⟨?_, hlast i hi hc hno⟩, fun hno => ?_⟩
    · obtain ⟨_, _, _, _, _, _, _, _, _, _, _, _, _, _, _, hb⟩ :=
        faceBasis_isSome dx.sqrt r.vertices r.indices i (by omega) hidx
      simp [hb]
    · have h := hnone hno
      rw [getElem?_resize _ _ _ _ hv] at h
      exact ⟨h, fun he => by simpa [he] using h⟩

theorem sqrt_one : Rat.sqrt 1 = 1 := by
  have := Rat.sqrt_eq (1 : ℚ)
  rwa [mul_one, abs_one] at this

theorem sqrt_quarter : Rat.sqrt (1 / 4) = 1 / 2 := by
  have := Rat.sqrt_eq (1 / 2 : ℚ)
  norm_num at this
  rw [this, abs_of_pos (by norm_num)]

theorem sqrt_nine_quarters : Rat.sqrt (9 / 4) = 3 / 2 := by
  have := Rat.sqrt_eq (3 / 2 : ℚ)
  norm_num at this
  rw [this, abs_of_pos (by norm_num)]

/-- The basis of the first triangle `(0, 1, 2)` of the quad. -/
theorem quad_faceBasis_zero : faceBasis ratMath.sqrt quad.vertices quad.indices 0 =
    some ⟨⟨1, 0, 0⟩, ⟨0, 1, 0⟩⟩ := by
  simp [faceBasis, quad, Renderable.new, ratMath, vertexAt, calculateTangentBitangent, sqrt_one]

/-- The basis of the second triangle `(0, 2, 3)` of the quad. -/
theorem quad_faceBasis_one : faceBasis ratMath.sqrt quad.vertices quad.indices 1 =
    some ⟨⟨0, 0, -1⟩, ⟨2 / 3, 2 / 3, 1 / 3⟩⟩ := by
  simp [faceBasis, quad, Renderable.new, ratMath, vertexAt, calculateTangentBitangent]
  norm_num [sqrt_quarter, sqrt_nine_quarters]

/-- The hypothesis of C1 holds for the quad of the triangles `(0, 1, 2)` and `(0, 2, 3)`,
and its conclusion gives the four entries: vertex 1 carries the basis of the first
triangle, the shared vertices 0 and 2 and vertex 3 carry that of the second. -/
theorem calculateNormalMapVectors_last_writer_wins_witness :
    (∀ k ∈ quad.indices, k < quad.vertices.length) ∧
    ∃ r1, quad.calculateNormalMapVectors ratMath = some r1 ∧
      r1.m_aNormalData.length = 4 ∧
      r1.m_aNormalData[0]? = some ⟨⟨0, 0, -1⟩, ⟨2 / 3, 2 / 3, 1 / 3⟩⟩ ∧
      r1.m_aNormalData[1]? = some ⟨⟨1, 0, 0⟩, ⟨0, 1, 0⟩⟩ ∧
      r1.m_aNormalData[2]? = some ⟨⟨0, 0, -1⟩, ⟨2 / 3, 2 / 3, 1 / 3⟩⟩ ∧
      r1.m_aNormalData[3]? = some ⟨⟨0, 0, -1⟩, ⟨2 / 3, 2 / 3, 1 / 3⟩⟩ := by
  refine ⟨by decide, ?_⟩
  obtain ⟨r1, h, hl, hv⟩ :=
    calculateNormalMapVectors_last_writer_wins ratMath quad (by decide)
  have hlast : ∀ j, 1 < j → j < quad.indices.length / 3 → ∀ v, ¬ faceContains quad.indices j v :=
    fun j h1 h2 => absurd h2 (by change ¬ j < 2; omega)
  refine ⟨r1, h, hl, ?_, ?_, ?_, ?_⟩
  · rw [← quad_faceBasis_one]
    exact ((hv 0 (by decide)).1 1 (by decide) (by decide) (fun j a b => hlast j a b 0)).2
  · rw [← quad_faceBasis_zero]
    refine ((hv 1 (by decide)).1 0 (by decide) (by decide) ?_).2
    intro j a b
    have : j = 1 := by change j < 2 at b; omega
    subst this
    decide
  · rw [← quad_faceBasis_one]
    exact ((hv 2 (by decide)).1 1 (by decide) (by decide) (fun j a b => hlast j a b 2)).2
  · rw [← quad_faceBasis_one]
    exact ((hv 3 (by decide)).1 1 (by decide) (by decide) (fun j a b => hlast j a b 3)).2

/-! ## Unit length of the tangent basis -/

theorem sqrt_normalized (x y z : ℝ) (h : x * x + y * y + z * z ≠ 0) :
    Real.sqrt (x / Real.sqrt (x * x + y * y + z * z) * (x / Real.sqrt (x * x + y * y + z * z)) +
      y / Real.sqrt (x * x + y * y + z * z) * (y / Real.sqrt (x * x + y * y + z * z)) +
      z / Real.sqrt (x * x + y * y + z * z) * (z / Real.sqrt (x * x + y * y + z * z))) = 1 := by
  have hs : 0 ≤ x * x + y * y + z * z := by
    nlinarith [mul_self_nonneg x, mul_self_nonneg y, mul_self_nonneg z]
  have hl : Real.sqrt (x * x + y * y + z * z) * Real.sqrt (x * x + y * y + z * z)
      = x * x + y * y + z * z := Real.mul_self_sqrt hs
  have hl0 : Real.sqrt (x * x + y * y + z * z) ≠ 0 := by
    intro h0
    rw [h0] at hl
    exact h (by linarith)
  generalize Real.sqrt (x * x + y * y + z * z) = l at hl hl0
  have : x / l * (x / l) + y / l * (y / l) + z / l * (z / l) = 1 := by
    field_simp
    linarith
  rw [this, Real.sqrt_one]

/-- A combination `a * e1 - b * e2` of two vectors with non-zero cross product, with
`a` and `b` not both zero and scaled by a non-zero factor, is not the zero vector. -/
theorem combination_ne_zero (a b d e1x e1y e1z e2x e2y e2z : ℝ) (hab : a ≠ 0 ∨ b ≠ 0)
    (hd : d ≠ 0)
    (hc : ¬ (e1y * e2z - e1z * e2y = 0 ∧ e1z * e2x - e1x * e2z = 0 ∧
      e1x * e2y - e1y * e2x = 0)) :
    (a * e1x - b * e2x) * d * ((a * e1x - b * e2x) * d) +
      (a * e1y - b * e2y) * d * ((a * e1y - b * e2y) * d) +
      (a * e1z - b * e2z) * d * ((a * e1z - b * e2z) * d) ≠ 0 := by
  intro h
  have hx : (a * e1x - b * e2x) * d = 0 := by
    nlinarith [mul_self_nonneg ((a * e1x - b * e2x) * d),
      mul_self_nonneg ((a * e1y - b * e2y) * d), mul_self_nonneg ((a * e1z - b * e2z) * d)]
  have hy : (a * e1y - b * e2y) * d = 0 := by
    nlinarith [mul_self_nonneg ((a * e1x - b * e2x) * d),
      mul_self_nonneg ((a * e1y - b * e2y) * d), mul_self_nonneg ((a * e1z - b * e2z) * d)]
  have hz : (a * e1z - b * e2z) * d = 0 := by
    nlinarith [mul_self_nonneg ((a * e1x - b * e2x) * d),
      mul_self_nonneg ((a * e1y - b * e2y) * d), mul_self_nonneg ((a * e1z - b * e2z) * d)]
  have hx1 : a * e1x - b * e2x = 0 := (mul_eq_zero.mp hx).resolve_right hd
  have hy1 : a * e1y - b * e2y = 0 := (mul_eq_zero.mp hy).resolve_right hd
  have hz1 : a * e1z - b * e2z = 0 := (mul_eq_zero.mp hz).resolve_right hd
  apply hc
  rcases hab with ha | hb
  · refine ⟨?_, ?_, ?_⟩
    · have : a * (e1y * e2z - e1z * e2y) = 0 := by linear_combination e2z * hy1 - e2y * hz1
      exact (mul_eq_zero.mp this).resolve_left ha
    · have : a * (e1z * e2x - e1x * e2z) = 0 := by linear_combination e2x * hz1 - e2z * hx1
      exact (mul_eq_zero.mp this).resolve_left ha
    · have : a * (e1x * e2y - e1y * e2x) = 0 := by linear_combination e2y * hx1 - e2x * hy1
      exact (mul_eq_zero.mp this).resolve_left ha
  · refine ⟨?_, ?_, ?_⟩
    · have : b * (e1y * e2z - e1z * e2y) = 0 := by linear_combination e1z * hy1 - e1y * hz1
      exact (mul_eq_zero.mp this).resolve_left hb
    · have : b * (e1z * e2x - e1x * e2z) = 0 := by linear_combination e1x * hz1 - e1z * hx1
      exact (mul_eq_zero.mp this).resolve_left hb
    · have : b * (e1x * e2y - e1y * e2x) = 0 := by linear_combination e1y * hx1 - e1x * hy1
      exact (mul_eq_zero.mp this).resolve_left hb

/-- C2, as amended. Unit length: over the reals, for every triangle whose three positions
are not collinear and whose texture-coordinate determinant (the divisor of the tangent
equation) is not zero, the tangent and the bitangent that `calculateTangentBitangent`
returns each have Euclidean length 1. -/
theorem calculateTangentBitangent_unit_length (v1 v2 v3 : SimpleVertex ℝ)
    (hpos : NonCollinear v1.Position v2.Position v3.Position)
    (huv : uvDeterminant v1 v2 v3 ≠ 0) :
    (calculateTangentBitangent Real.sqrt v1 v2 v3).1.length Real.sqrt = 1 ∧
    (calculateTangentBitangent Real.sqrt v1 v2 v3).2.length Real.sqrt = 1 := by
  unfold uvDeterminant at huv
  unfold NonCollinear at hpos
  have hd : (1 : ℝ) / ((v2.TexCoord.x - v1.TexCoord.x) * (v3.TexCoord.y - v1.TexCoord.y) -
      (v3.TexCoord.x - v1.TexCoord.x) * (v2.TexCoord.y - v1.TexCoord.y)) ≠ 0 :=
    one_div_ne_zero huv
  constructor
  · refine sqrt_normalized _ _ _ (combination_ne_zero _ _ _ _ _ _ _ _ _ ?_ hd hpos)
    by_contra hab
    push_neg at hab
    dsimp only at hab
    apply huv
    show (v2.TexCoord.x - v1.TexCoord.x) * (v3.TexCoord.y - v1.TexCoord.y) -
      (v3.TexCoord.x - v1.TexCoord.x) * (v2.TexCoord.y - v1.TexCoord.y) = 0
    rw [hab.1, hab.2]; ring
  · refine sqrt_normalized _ _ _ (combination_ne_zero _ _ _ _ _ _ _ _ _ ?_ hd ?_)
    · by_contra hab
      push_neg at hab
      dsimp only at hab
      apply huv
      show (v2.TexCoord.x - v1.TexCoord.x) * (v3.TexCoord.y - v1.TexCoord.y) -
        (v3.TexCoord.x - v1.TexCoord.x) * (v2.TexCoord.y - v1.TexCoord.y) = 0
      rw [hab.1, hab.2]; ring
    · intro hc
      apply hpos
      obtain ⟨c1, c2, c3⟩ := hc
      dsimp only at c1 c2 c3
      exact ⟨by linarith, by linarith, by linarith⟩

/-- The hypotheses of the amended C2 hold for the right triangle with the texture
coordinates of its corners, and so does its conclusion. -/
theorem calculateTangentBitangent_unit_length_witness :
    NonCollinear (vertexAt (0 : ℝ) 0 0 0 0).Position (vertexAt (1 : ℝ) 0 0 1 0).Position
      (vertexAt (0 : ℝ) 1 0 0 1).Position ∧
    uvDeterminant (vertexAt (0 : ℝ) 0 0 0 0) (vertexAt 1 0 0 1 0) (vertexAt 0 1 0 0 1) ≠ 0 ∧
    (calculateTangentBitangent Real.sqrt (vertexAt (0 : ℝ) 0 0 0 0) (vertexAt 1 0 0 1 0)
      (vertexAt 0 1 0 0 1)).1.length Real.sqrt = 1 ∧
    (calculateTangentBitangent Real.sqrt (vertexAt (0 : ℝ) 0 0 0 0) (vertexAt 1 0 0 1 0)
      (vertexAt 0 1 0 0 1)).2.length Real.sqrt = 1 :=
  ⟨by simp [NonCollinear, vertexAt], by simp [uvDeterminant, vertexAt],
    calculateTangentBitangent_unit_length _ _ _ (by simp [NonCollinear, vertexAt])
      (by simp [uvDeterminant, vertexAt])⟩

/-- C2 as stated fails: the triangle with positions `(0,0,0)`, `(1,0,0)`, `(0,1,0)` is not
degenerate and its texture coordinates `(0,0)`, `(1,0)`, `(2,0)` are pairwise distinct,
but they lie on one line, the divisor of the tangent equation is zero and the returned
tangent does not have length 1. -/
theorem calculateTangentBitangent_unit_length_counterexample :
    NonCollinear (vertexAt (0 : ℝ) 0 0 0 0).Position (vertexAt (1 : ℝ) 0 0 1 0).Position
      (vertexAt (0 : ℝ) 1 0 2 0).Position ∧
    DistinctTexCoords (vertexAt (0 : ℝ) 0 0 0 0) (vertexAt 1 0 0 1 0) (vertexAt 0 1 0 2 0) ∧
    uvDeterminant (vertexAt (0 : ℝ) 0 0 0 0) (vertexAt 1 0 0 1 0) (vertexAt 0 1 0 2 0) = 0 ∧
    (calculateTangentBitangent Real.sqrt (vertexAt (0 : ℝ) 0 0 0 0) (vertexAt 1 0 0 1 0)
      (vertexAt 0 1 0 2 0)).1.length Real.sqrt ≠ 1 := by
  refine ⟨by simp [NonCollinear, vertexAt], ?_, by simp [uvDeterminant, vertexAt], ?_⟩
  · simp [DistinctTexCoords, vertexAt]
  · simp [calculateTangentBitangent, XMFLOAT3.length, vertexAt]

/-! ## Material and mesh binding -/

/-- An index outside its table: `SetMaterialOfMesh` returns `E_FAIL` and the state,
with its two tables and the flag, is as it was. -/
theorem SetMaterialOfMesh_out_of_range {F M : Type} (r : Renderable F M)
    (uMeshIndex uMaterialIndex : Nat)
    (h : uMeshIndex ≥ r.m_aMeshes.length ∨ uMaterialIndex ≥ r.m_aMaterials.length) :
    r.SetMaterialOfMesh uMeshIndex uMaterialIndex = some (E_FAIL, r) := by
  unfold Renderable.SetMaterialOfMesh
  rw [if_pos]
  simpa using h

/-- Both indices inside their tables: what `SetMaterialOfMesh` does is decided by the
material table entry at the mesh index. -/
theorem SetMaterialOfMesh_in_range {F M : Type} (r : Renderable F M)
    (uMeshIndex uMaterialIndex : Nat)
    (h1 : uMeshIndex < r.m_aMeshes.length) (h2 : uMaterialIndex < r.m_aMaterials.length) :
    r.SetMaterialOfMesh uMeshIndex uMaterialIndex =
      match r.m_aMaterials[uMeshIndex]? with
      | none => none
      | some m =>
        some (S_OK, { r with
          m_aMeshes := r.m_aMeshes.set uMeshIndex
            { r.m_aMeshes[uMeshIndex] with uMaterialIndex := uMaterialIndex }
          m_bHasNormalMap := r.m_bHasNormalMap || m.pNormal.isSome }) := by
  unfold Renderable.SetMaterialOfMesh
  rw [if_neg (by simp; omega)]
  simp only [List.getElem?_eq_getElem h1]
  cases hm : r.m_aMaterials[uMeshIndex]? with
  | none => rfl
  | some m =>
    cases hn : m.pNormal.isSome <;> simp [hn]

/-- C3, at the failing input. Two meshes and one material, `SetMaterialOfMesh(1, 0)`:
both indices are inside their tables, and the call does not return success, it reads
the material table at the mesh index 1, outside its bounds. -/
theorem SetMaterialOfMesh_in_range_no_success :
    (1 < quadOneMaterial.GetNumMeshes ∧ 0 < quadOneMaterial.GetNumMaterials) ∧
    quadOneMaterial.m_aMaterials[1]? = none ∧
    quadOneMaterial.SetMaterialOfMesh 1 0 = none := by
  refine ⟨by decide, by decide, ?_⟩
  rw [SetMaterialOfMesh_in_range _ _ _ (by decide) (by decide)]
  rfl

/-- C4, at the failing input. One mesh and two materials of which the second carries a
normal map, `SetMaterialOfMesh(0, 1)`: the call succeeds and the mesh records material
1, but `HasNormalMap()` is false afterwards, the material examined being the one at
the mesh index 0. -/
theorem SetMaterialOfMesh_normal_map_flag_not_set :
    (0 < quadOneMesh.GetNumMeshes ∧ 1 < quadOneMesh.GetNumMaterials) ∧
    (quadOneMesh.m_aMaterials[1]?.map fun m => m.pNormal.isSome) = some true ∧
    ∃ r1, quadOneMesh.SetMaterialOfMesh 0 1 = some (S_OK, r1) ∧
      (r1.m_aMeshes[0]?.map fun e => e.uMaterialIndex) = some 1 ∧
      r1.HasNormalMap = false := by
  refine ⟨by decide, by decide, _, SetMaterialOfMesh_in_range _ _ _ (by decide) (by decide),
    by decide, by decide⟩

/-! ## Frame properties -/

/-- The generator changes the tangent store only. -/
theorem calculateNormalMapVectors_frame {F M : Type} [Field F] (dx : DirectXMath F M)
    (r r1 : Renderable F M) (h : r.calculateNormalMapVectors dx = some r1) :
    r1 = { r with m_aNormalData := r1.m_aNormalData } := by
  simp only [Renderable.calculateNormalMapVectors, Option.map_eq_some'] at h
  obtain ⟨nd, _, rfl⟩ := h
  rfl

/-- The tangent store that the generator leaves depends on the geometry and on the
store only. -/
theorem calculateNormalMapVectors_congr {F M : Type} [Field F] (dx : DirectXMath F M)
    (r r0 : Renderable F M) (hv : r.vertices = r0.vertices) (hi : r.indices = r0.indices)
    (hn : r.m_aNormalData = r0.m_aNormalData) :
    (r.calculateNormalMapVectors dx).map (fun s => s.m_aNormalData) =
      (r0.calculateNormalMapVectors dx).map (fun s => s.m_aNormalData) := by
  simp [Renderable.calculateNormalMapVectors, Renderable.GetNumIndices,
    Renderable.GetNumVertices, Renderable.getVertices, Renderable.getIndices, hv, hi, hn,
    Function.comp_def]

/-- The generator leaves exactly `vertexCount` entries whenever it returns. -/
theorem calculateNormalMapVectors_length {F M : Type} [Field F] (dx : DirectXMath F M)
    (r r1 : Renderable F M) (h : r.calculateNormalMapVectors dx = some r1) :
    r1.m_aNormalData.length = r.vertices.length := by
  simp only [Renderable.calculateNormalMapVectors, Option.map_eq_some'] at h
  obtain ⟨nd, hrun, rfl⟩ := h
  show nd.length = r.vertices.length
  have key : ∀ (l : List Nat) (a b : List (NormalData F)),
      l.foldlM (calculateNormalMapVectors.face dx.sqrt r.getVertices r.getIndices) a = some b →
      b.length = a.length := by
    intro l
    induction l with
    | nil => intro a b hab; simp at hab; rw [hab]
    | cons i l ih =>
      intro a b hab
      rw [List.foldlM_cons] at hab
      cases hf : calculateNormalMapVectors.face dx.sqrt r.getVertices r.getIndices a i with
      | none => rw [hf] at hab; simp at hab
      | some a1 =>
        rw [hf] at hab
        have h1 := ih a1 b hab
        have h2 : a1.length = a.length := by
          unfold calculateNormalMapVectors.face at hf
          split at hf
          · split at hf
            · simp only [Option.bind_eq_some, storeTangentBitangent] at hf
              obtain ⟨x, hx, y, hy, hz⟩ := hf
              split at hx <;> try contradiction
              split at hx <;> try contradiction
              split at hy <;> try contradiction
              split at hy <;> try contradiction
              split at hz <;> try contradiction
              split at hz <;> try contradiction
              simp only [Option.some.injEq] at hx hy hz
              subst hx hy hz
              simp
            · contradiction
          · contradiction
        omega
  rw [key _ _ _ hrun, length_resize]
  rfl

/-! ## Buffer provisioning: the runs of the routine -/

/-- The runs of the provisioning routine that return, case by case: `nd` is the tangent
store after the gate and `g` the call of the generator, if it was made. -/
theorem initialize_inv {F M : Type} [Field F] (L : Layout) (dx : DirectXMath F M)
    (pDevice : ID3D11Device F) (r : Renderable F M) (res : InitializeResult F M)
    (h : Renderable.initialize L dx pDevice r = some res) :
    (FAILED (pDevice (r.vertexBufferCall L)) = true ∧ res.hr = pDevice (r.vertexBufferCall L) ∧
      res.state = r ∧ res.calls = [.CreateBuffer (r.vertexBufferCall L)]) ∨
    (FAILED (pDevice (r.vertexBufferCall L)) = false ∧ ∃ nd g,
      ((¬ r.generatorGate ∧ g = [] ∧ nd = r.m_aNormalData) ∨
       (r.generatorGate ∧ g = [.calculateNormalMapVectors] ∧
        (r.calculateNormalMapVectors dx).map (fun s => s.m_aNormalData) = some nd)) ∧
      ((FAILED (pDevice (r.normalBufferCall L nd)) = true ∧
        res.hr = pDevice (r.normalBufferCall L nd) ∧
        res.state = { r with m_vertexBuffer := some ⟨r.vertexBufferCall L⟩, m_aNormalData := nd } ∧
        res.calls = .CreateBuffer (r.vertexBufferCall L) :: g ++
          [.CreateBuffer (r.normalBufferCall L nd)]) ∨
       (FAILED (pDevice (r.normalBufferCall L nd)) = false ∧
        FAILED (pDevice r.indexBufferCall) = true ∧
        res.hr = pDevice r.indexBufferCall ∧
        res.state = { r with m_vertexBuffer := some ⟨r.vertexBufferCall L⟩, m_aNormalData := nd,
                             m_normalBuffer := some ⟨r.normalBufferCall L nd⟩ } ∧
        res.calls = .CreateBuffer (r.vertexBufferCall L) :: g ++
          [.CreateBuffer (r.normalBufferCall L nd), .CreateBuffer r.indexBufferCall]) ∨
       (FAILED (pDevice (r.normalBufferCall L nd)) = false ∧
        FAILED (pDevice r.indexBufferCall) = false ∧
        res.hr = pDevice (constantBufferCall F L) ∧
        res.state = { r with m_vertexBuffer := some ⟨r.vertexBufferCall L⟩, m_aNormalData := nd,
                             m_normalBuffer := some ⟨r.normalBufferCall L nd⟩,
                             m_indexBuffer := some ⟨r.indexBufferCall⟩,
                             m_constantBuffer :=
                               if FAILED (pDevice (constantBufferCall F L)) then r.m_constantBuffer
                               else some ⟨constantBufferCall F L⟩ } ∧
        res.calls = .CreateBuffer (r.vertexBufferCall L) :: g ++
          [.CreateBuffer (r.normalBufferCall L nd), .CreateBuffer r.indexBufferCall,
           .CreateBuffer (constantBufferCall F L)]))) := by
  unfold Renderable.initialize at h
  simp only [] at h
  change (if FAILED (pDevice (r.vertexBufferCall L)) = true then _ else _) = _ at h
  by_cases h1 : FAILED (pDevice (r.vertexBufferCall L)) = true
  · left
    rw [if_pos h1] at h
    simp only [Option.some.injEq] at h
    subst h
    exact ⟨h1, rfl, rfl, rfl⟩
  · right
    rw [if_neg h1] at h
    simp only [Bool.not_eq_true] at h1
    refine ⟨h1, ?_⟩
    split at h
    · exact absurd h (by simp)
    · next r1 g heq =>
      have hgen : ∃ nd, r1 = { r with m_vertexBuffer := some ⟨r.vertexBufferCall L⟩,
                                      m_aNormalData := nd } ∧
          ((¬ r.generatorGate ∧ g = [] ∧ nd = r.m_aNormalData) ∨
           (r.generatorGate ∧ g = [.calculateNormalMapVectors] ∧
            (r.calculateNormalMapVectors dx).map (fun s => s.m_aNormalData) = some nd)) := by
        by_cases hg : r.generatorGate
        · have hg1 : (({ r with m_vertexBuffer := some ⟨r.vertexBufferCall L⟩ } :
              Renderable F M).HasTexture
              && r.m_aNormalData.isEmpty) = true := by
            obtain ⟨a, b⟩ := hg
            simp only [Renderable.HasTexture, Renderable.GetNumMaterials] at a ⊢
            simp [a, b]
          change (if ((({ r with m_vertexBuffer := some ⟨r.vertexBufferCall L⟩ } :
              Renderable F M).HasTexture
              && r.m_aNormalData.isEmpty) = true) then _ else _) = _ at heq
          rw [if_pos hg1] at heq
          simp only [Option.map_eq_some', Prod.mk.injEq] at heq
          obtain ⟨r2, hr2, rfl, rfl⟩ := heq
          have hfr := calculateNormalMapVectors_frame dx _ _ hr2
          have hco := calculateNormalMapVectors_congr dx r
            { r with m_vertexBuffer := some ⟨r.vertexBufferCall L⟩ } rfl rfl rfl
          exact ⟨r2.m_aNormalData, hfr, Or.inr ⟨hg, rfl,
            hco.trans (congrArg (Option.map fun s => s.m_aNormalData) hr2)⟩⟩
        · have hg1 : ¬ ((({ r with m_vertexBuffer := some ⟨r.vertexBufferCall L⟩ } :
              Renderable F M).HasTexture
              && r.m_aNormalData.isEmpty) = true) := by
            intro hc
            apply hg
            simp only [Renderable.HasTexture, Renderable.GetNumMaterials, Bool.and_eq_true,
              List.isEmpty_iff] at hc
            exact ⟨by simpa [Renderable.HasTexture, Renderable.GetNumMaterials] using hc.1, hc.2⟩
          change (if ((({ r with m_vertexBuffer := some ⟨r.vertexBufferCall L⟩ } :
              Renderable F M).HasTexture
              && r.m_aNormalData.isEmpty) = true) then _ else _) = _ at heq
          rw [if_neg hg1] at heq
          simp only [Option.some.injEq, Prod.mk.injEq] at heq
          obtain ⟨rfl, rfl⟩ := heq
          exact ⟨r.m_aNormalData, rfl, Or.inl ⟨hg, rfl, rfl⟩⟩
      obtain ⟨nd, rfl, hgate⟩ := hgen
      refine ⟨nd, g, hgate, ?_⟩
      change (if FAILED (pDevice (r.normalBufferCall L nd)) = true then _ else _) = _ at h
      by_cases h2 : FAILED (pDevice (r.normalBufferCall L nd)) = true
      · left
        rw [if_pos h2] at h
        simp only [Option.some.injEq] at h
        subst h
        exact ⟨h2, rfl, rfl, rfl⟩
      · right
        rw [if_neg h2] at h
        simp only [Bool.not_eq_true] at h2
        change (if FAILED (pDevice r.indexBufferCall) = true then _ else _) = _ at h
        by_cases h3 : FAILED (pDevice r.indexBufferCall) = true
        · left
          rw [if_pos h3] at h
          simp only [Option.some.injEq] at h
          subst h
          exact ⟨h2, h3, rfl, rfl, rfl⟩
        · right
          rw [if_neg h3] at h
          simp only [Bool.not_eq_true] at h3
          change (if FAILED (pDevice (constantBufferCall F L)) = true then _ else _) = _ at h
          by_cases h4 : FAILED (pDevice (constantBufferCall F L)) = true
          · rw [if_pos h4] at h
            simp only [Option.some.injEq] at h
            subst h
            exact ⟨h2, h3, rfl, by rw [if_pos h4]; rfl, rfl⟩
          · rw [if_neg h4] at h
            simp only [Option.some.injEq] at h
            subst h
            exact ⟨h2, h3, rfl, by rw [if_neg h4]; rfl, rfl⟩

/-- The generator returns when every index is below the vertex count. -/
theorem calculateNormalMapVectors_isSome {F M : Type} [Field F] (dx : DirectXMath F M)
    (r : Renderable F M) (hidx : ∀ k ∈ r.indices, k < r.vertices.length) :
    ∃ r1, r.calculateNormalMapVectors dx = some r1 := by
  obtain ⟨nd, hrun, -, -⟩ := loop_spec dx.sqrt r.vertices r.indices
    (resize r.m_aNormalData r.vertices.length NormalData.zero) hidx (length_resize _ _ _)
    (r.indices.length / 3) (Nat.le_refl _)
  exact ⟨{ r with m_aNormalData := nd }, by
    simp [Renderable.calculateNormalMapVectors, Renderable.GetNumIndices,
      Renderable.GetNumVertices, Renderable.getVertices, Renderable.getIndices, hrun]⟩

/-- The provisioning routine returns unless the generator is called and does not
return. -/
theorem initialize_isSome {F M : Type} [Field F] (L : Layout) (dx : DirectXMath F M)
    (pDevice : ID3D11Device F) (r : Renderable F M)
    (h : FAILED (pDevice (r.vertexBufferCall L)) = true ∨ ¬ r.generatorGate ∨
      ∃ r1, r.calculateNormalMapVectors dx = some r1) :
    ∃ res, Renderable.initialize L dx pDevice r = some res := by
  unfold Renderable.initialize
  simp only []
  change ∃ res, (if FAILED (pDevice (r.vertexBufferCall L)) = true then _ else _) = some res
  by_cases h1 : FAILED (pDevice (r.vertexBufferCall L)) = true
  · rw [if_pos h1]; exact ⟨_, rfl⟩
  · rw [if_neg h1]
    have hgen : ∃ r2 g, (if ((({ r with m_vertexBuffer := some ⟨r.vertexBufferCall L⟩ } :
          Renderable F M).HasTexture && r.m_aNormalData.isEmpty) = true) then
          (Renderable.calculateNormalMapVectors dx
            ({ r with m_vertexBuffer := some ⟨r.vertexBufferCall L⟩ } : Renderable F M)).map
            fun r => (r, [Call.calculateNormalMapVectors])
        else some (({ r with m_vertexBuffer := some ⟨r.vertexBufferCall L⟩ } : Renderable F M),
          ([] : List (Call F)))) = some (r2, g) := by
      split
      · next hc =>
        have hg : r.generatorGate := by
          simp only [Renderable.HasTexture, Renderable.GetNumMaterials, Bool.and_eq_true,
            List.isEmpty_iff] at hc
          exact ⟨by simpa [Renderable.HasTexture, Renderable.GetNumMaterials] using hc.1, hc.2⟩
        rcases h with h | h | ⟨r1, h⟩
        · exact absurd h h1
        · exact absurd hg h
        · have hco := calculateNormalMapVectors_congr dx r
            { r with m_vertexBuffer := some ⟨r.vertexBufferCall L⟩ } rfl rfl rfl
          rw [h] at hco
          cases hc2 : Renderable.calculateNormalMapVectors dx
              ({ r with m_vertexBuffer := some ⟨r.vertexBufferCall L⟩ } : Renderable F M) with
          | none => rw [hc2] at hco; simp at hco
          | some r2 => exact ⟨r2, _, rfl⟩
      · exact ⟨_, _, rfl⟩
    obtain ⟨r2, g, hgen⟩ := hgen
    split
    · next hn => exact absurd (hn.symm.trans hgen) (by simp)
    · split
      · exact ⟨_, rfl⟩
      · split
        · exact ⟨_, rfl⟩
        · split <;> exact ⟨_, rfl⟩

/-- The state that the provisioning routine leaves differs from the one it started from
in the four buffer members and the tangent store only. -/
theorem initialize_frame {F M : Type} [Field F] (L : Layout) (dx : DirectXMath F M)
    (pDevice : ID3D11Device F) (r : Renderable F M) (res : InitializeResult F M)
    (h : Renderable.initialize L dx pDevice r = some res) :
    res.state.vertices = r.vertices ∧ res.state.indices = r.indices ∧
    res.state.m_aMeshes = r.m_aMeshes ∧ res.state.m_aMaterials = r.m_aMaterials ∧
    res.state.m_world = r.m_world ∧ res.state.m_bHasNormalMap = r.m_bHasNormalMap ∧
    (res.state.m_aNormalData = r.m_aNormalData ∨
      (r.calculateNormalMapVectors dx).map (fun s => s.m_aNormalData)
        = some res.state.m_aNormalData) := by
  rcases initialize_inv L dx pDevice r res h with ⟨-, -, hs, -⟩ | ⟨-, nd, g, hgate, hrest⟩
  · rw [hs]; simp
  · have hnd : nd = r.m_aNormalData ∨
        (r.calculateNormalMapVectors dx).map (fun s => s.m_aNormalData) = some nd := by
      rcases hgate with ⟨-, -, e⟩ | ⟨-, -, e⟩
      · exact Or.inl e
      · exact Or.inr e
    rcases hrest with ⟨-, -, hs, -⟩ | ⟨-, -, -, hs, -⟩ | ⟨-, -, -, hs, -⟩ <;>
    · rw [hs]
      refine ⟨rfl, rfl, rfl, rfl, rfl, rfl, ?_⟩
      exact hnd

/-! ## The normal-map flag -/

/-- C5. Monotonic has-normal-map flag: the flag is false after construction; every
operation that returns (AddMaterial, SetMaterialOfMesh whether it reports success or
failure and whatever material it names, initialize, the transform operations, the shader
setters) leaves the flag true when it was true before; and binding a mesh to any
material, with or without a normal map, returns and leaves a set flag set as soon as
the table entry it examines exists. -/
theorem hasNormalMap_monotonic {F M : Type} [Field F] [Mul M] [One M]
    (dx : DirectXMath F M) :
    (∀ (vertices : List (SimpleVertex F)) (indices : List Nat) (outputColor : XMFLOAT4 F),
      (Renderable.new vertices indices outputColor : Renderable F M).HasNormalMap = false) ∧
    (∀ (r r1 : Renderable F M) (op : Op F), Op.run dx r op = some r1 →
      r.HasNormalMap = true → r1.HasNormalMap = true) ∧
    (∀ (r : Renderable F M) (uMeshIndex uMaterialIndex : Nat), r.HasNormalMap = true →
      uMeshIndex < r.GetNumMeshes → uMaterialIndex < r.GetNumMaterials →
      uMeshIndex < r.GetNumMaterials →
      ∃ r1, r.SetMaterialOfMesh uMeshIndex uMaterialIndex = some (S_OK, r1) ∧
        r1.HasNormalMap = true) := by
  refine ⟨fun _ _ _ => rfl, ?_, ?_⟩
  · intro r r1 op hrun hflag
    simp only [Renderable.HasNormalMap] at hflag ⊢
    cases op with
    | AddMaterial material =>
      simp only [Op.run, Option.some.injEq] at hrun
      subst hrun; exact hflag
    | SetMaterialOfMesh i j =>
      simp only [Op.run, Option.map_eq_some'] at hrun
      obtain ⟨⟨hr, s⟩, hs, rfl⟩ := hrun
      by_cases hin : i < r.m_aMeshes.length ∧ j < r.m_aMaterials.length
      · rw [SetMaterialOfMesh_in_range r i j hin.1 hin.2] at hs
        cases hm : r.m_aMaterials[i]? with
        | none => rw [hm] at hs; simp at hs
        | some m =>
          rw [hm] at hs
          simp only [Option.some.injEq, Prod.mk.injEq] at hs
          obtain ⟨-, rfl⟩ := hs
          simp [hflag]
      · rw [SetMaterialOfMesh_out_of_range r i j (by omega)] at hs
        simp only [Option.some.injEq, Prod.mk.injEq] at hs
        obtain ⟨-, rfl⟩ := hs
        exact hflag
    | Initialize L pDevice =>
      simp only [Op.run, Option.map_eq_some'] at hrun
      obtain ⟨res, hres, rfl⟩ := hrun
      rw [(initialize_frame L dx pDevice r res hres).2.2.2.2.2.1]
      exact hflag
    | SetVertexShader vs =>
      simp only [Op.run, Option.some.injEq] at hrun
      subst hrun; exact hflag
    | SetPixelShader ps =>
      simp only [Op.run, Option.some.injEq] at hrun
      subst hrun; exact hflag
    | Transform t =>
      simp only [Op.run, Option.some.injEq] at hrun
      subst hrun
      cases t <;> exact hflag
  · intro r i j hflag h1 h2 h3
    simp only [Renderable.HasNormalMap, Renderable.GetNumMeshes,
      Renderable.GetNumMaterials] at hflag h1 h2 h3 ⊢
    rw [SetMaterialOfMesh_in_range r i j h1 h2, List.getElem?_eq_getElem h3]
    exact ⟨_, rfl, by simp [hflag]⟩

/-- An instance of C5: the flagged quad keeps its flag when its second mesh is bound to
its plain material. -/
theorem hasNormalMap_monotonic_witness :
    quadFlagged.HasNormalMap = true ∧
    (quadFlagged.m_aMaterials[1]?.map fun m => m.pNormal) = some none ∧
    ∃ r1, Op.run ratMath quadFlagged (.SetMaterialOfMesh 1 1) = some r1 ∧
      r1.HasNormalMap = true :=
  ⟨rfl, rfl, _, rfl,
    (hasNormalMap_monotonic ratMath).2.1 quadFlagged _ (.SetMaterialOfMesh 1 1) rfl rfl⟩

/-! ## Fail-fast provisioning -/

/-- The requests of a run that returns, case by case. -/
theorem initialize_requests {F M : Type} [Field F] (L : Layout) (dx : DirectXMath F M)
    (pDevice : ID3D11Device F) (r : Renderable F M) (res : InitializeResult F M)
    (h : Renderable.initialize L dx pDevice r = some res) :
    ∃ c1 c2 c3 c4 : CreateBufferCall F,
      c1.ppBuffer = .m_vertexBuffer ∧ c2.ppBuffer = .m_normalBuffer ∧
      c3.ppBuffer = .m_indexBuffer ∧ c4.ppBuffer = .m_constantBuffer ∧
      ((FAILED (pDevice c1) = true ∧ res.hr = pDevice c1 ∧ res.requests = [c1]) ∨
       (FAILED (pDevice c1) = false ∧ FAILED (pDevice c2) = true ∧ res.hr = pDevice c2 ∧
        res.requests = [c1, c2]) ∨
       (FAILED (pDevice c1) = false ∧ FAILED (pDevice c2) = false ∧
        FAILED (pDevice c3) = true ∧ res.hr = pDevice c3 ∧ res.requests = [c1, c2, c3]) ∨
       (FAILED (pDevice c1) = false ∧ FAILED (pDevice c2) = false ∧
        FAILED (pDevice c3) = false ∧ res.hr = pDevice c4 ∧
        res.requests = [c1, c2, c3, c4])) := by
  rcases initialize_inv L dx pDevice r res h with ⟨h1, hr, -, hc⟩ | ⟨h1, nd, g, hgate, hrest⟩
  · refine ⟨r.vertexBufferCall L, r.normalBufferCall L r.m_aNormalData, r.indexBufferCall,
      constantBufferCall F L, rfl, rfl, rfl, rfl, Or.inl ⟨h1, hr, ?_⟩⟩
    unfold InitializeResult.requests
    rw [hc]; rfl
  · refine ⟨r.vertexBufferCall L, r.normalBufferCall L nd, r.indexBufferCall,
      constantBufferCall F L, rfl, rfl, rfl, rfl, Or.inr ?_⟩
    have hg : g = [] ∨ g = [.calculateNormalMapVectors] := by
      rcases hgate with ⟨-, e, -⟩ | ⟨-, e, -⟩
      · exact Or.inl e
      · exact Or.inr e
    rcases hrest with ⟨h2, hr, -, hc⟩ | ⟨h2, h3, hr, -, hc⟩ | ⟨h2, h3, hr, -, hc⟩
    · refine Or.inl ⟨h1, h2, hr, ?_⟩
      unfold InitializeResult.requests
      rw [hc]
      rcases hg with rfl | rfl <;> rfl
    · refine Or.inr (Or.inl ⟨h1, h2, h3, hr, ?_⟩)
      unfold InitializeResult.requests
      rw [hc]
      rcases hg with rfl | rfl <;> rfl
    · refine Or.inr (Or.inr ⟨h1, h2, h3, hr, ?_⟩)
      unfold InitializeResult.requests
      rw [hc]
      rcases hg with rfl | rfl <;> rfl

/-- C6. Fail-fast provisioning: on a renderable whose indices are below the vertex count
the routine returns; its requests are, in this order, for the vertex, normal, index and
constant buffer; for every `k` in `1..4` (here `k < 4`, counted from 0), if the requests
before the `k`-th were issued and succeeded, the `k`-th is issued, and if it fails the
routine returns exactly its status and issues no further request; the routine returns
success iff four requests were issued and all succeeded. -/
theorem initialize_fail_fast {F M : Type} [Field F] (L : Layout) (dx : DirectXMath F M)
    (pDevice : ID3D11Device F) (r : Renderable F M)
    (hidx : ∀ k ∈ r.indices, k < r.vertices.length) :
    ∃ res, Renderable.initialize L dx pDevice r = some res ∧
      res.requests.map (fun q => q.ppBuffer) = bufferSlotOrder.take res.requests.length ∧
      1 ≤ res.requests.length ∧
      (∀ k, k < 4 →
        (∀ j, j < k → ∃ q, res.requests[j]? = some q ∧ FAILED (pDevice q) = false) →
        ∃ q, res.requests[k]? = some q ∧
          (FAILED (pDevice q) = true → res.hr = pDevice q ∧ res.requests.length = k + 1)) ∧
      (FAILED res.hr = false ↔
        res.requests.length = 4 ∧ ∀ q ∈ res.requests, FAILED (pDevice q) = false) := by
  obtain ⟨res, h⟩ := initialize_isSome L dx pDevice r
    (Or.inr (Or.inr (calculateNormalMapVectors_isSome dx r hidx)))
  refine ⟨res, h, ?_⟩
  obtain ⟨c1, c2, c3, c4, s1, s2, s3, s4, hcase⟩ := initialize_requests L dx pDevice r res h
  rcases hcase with ⟨h1, hr, hq⟩ | ⟨h1, h2, hr, hq⟩ | ⟨h1, h2, h3, hr, hq⟩ |
    ⟨h1, h2, h3, hr, hq⟩
  · rw [hq, hr]
    refine ⟨by simp [bufferSlotOrder, s1], by simp, ?_, by simp [h1]⟩
    intro k hk hprev
    interval_cases k
    · exact ⟨c1, rfl, fun _ => ⟨rfl, rfl⟩⟩
    · obtain ⟨q, hq0, hf⟩ := hprev 0 (by omega)
      simp only [List.getElem?_cons_zero, Option.some.injEq] at hq0
      subst hq0; rw [h1] at hf; exact absurd hf (by simp)
    · obtain ⟨q, hq0, hf⟩ := hprev 0 (by omega)
      simp only [List.getElem?_cons_zero, Option.some.injEq] at hq0
      subst hq0; rw [h1] at hf; exact absurd hf (by simp)
    · obtain ⟨q, hq0, hf⟩ := hprev 0 (by omega)
      simp only [List.getElem?_cons_zero, Option.some.injEq] at hq0
      subst hq0; rw [h1] at hf; exact absurd hf (by simp)
  · rw [hq, hr]
    refine ⟨by simp [bufferSlotOrder, s1, s2], by simp, ?_, by simp [h2]⟩
    intro k hk hprev
    interval_cases k
    · exact ⟨c1, rfl, fun hf => absurd (h1.symm.trans hf) (by simp)⟩
    · exact ⟨c2, rfl, fun _ => ⟨rfl, rfl⟩⟩
    · obtain ⟨q, hq0, hf⟩ := hprev 1 (by omega)
      simp only [List.getElem?_cons_succ, List.getElem?_cons_zero, Option.some.injEq] at hq0
      subst hq0; rw [h2] at hf; exact absurd hf (by simp)
    · obtain ⟨q, hq0, hf⟩ := hprev 1 (by omega)
      simp only [List.getElem?_cons_succ, List.getElem?_cons_zero, Option.some.injEq] at hq0
      subst hq0; rw [h2] at hf; exact absurd hf (by simp)
  · rw [hq, hr]
    refine ⟨by simp [bufferSlotOrder, s1, s2, s3], by simp, ?_, by simp [h3]⟩
    intro k hk hprev
    interval_cases k
    · exact ⟨c1, rfl, fun hf => absurd (h1.symm.trans hf) (by simp)⟩
    · exact ⟨c2, rfl, fun hf => absurd (h2.symm.trans hf) (by simp)⟩
    · exact ⟨c3, rfl, fun _ => ⟨rfl, rfl⟩⟩
    · obtain ⟨q, hq0, hf⟩ := hprev 2 (by omega)
      simp only [List.getElem?_cons_succ, List.getElem?_cons_zero, Option.some.injEq] at hq0
      subst hq0; rw [h3] at hf; exact absurd hf (by simp)
  · rw [hq, hr]
    refine ⟨by simp [bufferSlotOrder, s1, s2, s3, s4], by simp, ?_, ?_⟩
    · intro k hk hprev
      interval_cases k
      · exact ⟨c1, rfl, fun hf => absurd (h1.symm.trans hf) (by simp)⟩
      · exact ⟨c2, rfl, fun hf => absurd (h2.symm.trans hf) (by simp)⟩
      · exact ⟨c3, rfl, fun hf => absurd (h3.symm.trans hf) (by simp)⟩
      · exact ⟨c4, rfl, fun _ => ⟨rfl, rfl⟩⟩
    · simp [h1, h2, h3]

/-- The hypothesis of C6 holds for the textured quad, and so does its conclusion with a
device that refuses the normal buffer. -/
theorem initialize_fail_fast_witness :
    (∀ k ∈ quadTextured.indices, k < quadTextured.vertices.length) ∧
    ∃ res, Renderable.initialize exampleLayout ratMath (deviceFailingAt .m_normalBuffer)
        quadTextured = some res ∧
      res.requests.map (fun q => q.ppBuffer) = bufferSlotOrder.take res.requests.length ∧
      1 ≤ res.requests.length ∧
      (∀ k, k < 4 →
        (∀ j, j < k → ∃ q, res.requests[j]? = some q ∧
          FAILED (deviceFailingAt .m_normalBuffer q) = false) →
        ∃ q, res.requests[k]? = some q ∧
          (FAILED (deviceFailingAt .m_normalBuffer q) = true →
            res.hr = deviceFailingAt .m_normalBuffer q ∧ res.requests.length = k + 1)) ∧
      (FAILED res.hr = false ↔
        res.requests.length = 4 ∧
          ∀ q ∈ res.requests, FAILED (deviceFailingAt .m_normalBuffer q) = false) :=
  ⟨by decide, initialize_fail_fast exampleLayout ratMath (deviceFailingAt .m_normalBuffer)
    quadTextured (by decide)⟩

/-! ## Gating of the tangent generator -/

/-- C7. Gating of tangent generation: in a run of the routine that returns, the first
request is the vertex-buffer request, and the generator is called if and only if that
request succeeded, `HasTexture()` is true and the tangent store is empty; when it is
called the store afterwards is the one the generator produces, in every other case the
store is exactly as it was. `HasTexture()` is true iff the material table is not
empty, and the routine returns whenever every index is below the vertex count. -/
theorem initialize_gating {F M : Type} [Field F] (L : Layout) (dx : DirectXMath F M)
    (pDevice : ID3D11Device F) (r : Renderable F M) :
    (∀ res, Renderable.initialize L dx pDevice r = some res →
      res.requests.head? = some (r.vertexBufferCall L) ∧
      (Call.calculateNormalMapVectors ∈ res.calls ↔
        (FAILED (pDevice (r.vertexBufferCall L)) = false ∧ r.HasTexture = true ∧
          r.m_aNormalData = [])) ∧
      (Call.calculateNormalMapVectors ∈ res.calls →
        (r.calculateNormalMapVectors dx).map (fun s => s.m_aNormalData)
          = some res.state.m_aNormalData) ∧
      (Call.calculateNormalMapVectors ∉ res.calls →
        res.state.m_aNormalData = r.m_aNormalData)) ∧
    (r.HasTexture = true ↔ r.m_aMaterials ≠ []) ∧
    ((∀ k ∈ r.indices, k < r.vertices.length) →
      ∃ res, Renderable.initialize L dx pDevice r = some res) := by
  refine ⟨?_, ?_, fun hidx => initialize_isSome L dx pDevice r
    (Or.inr (Or.inr (calculateNormalMapVectors_isSome dx r hidx)))⟩
  · intro res h
    rcases initialize_inv L dx pDevice r res h with ⟨h1, -, hs, hc⟩ | ⟨h1, nd, g, hgate, hrest⟩
    · refine ⟨by unfold InitializeResult.requests; rw [hc]; rfl, ?_, ?_, ?_⟩
      · rw [hc]; simp [h1]
      · rw [hc]; simp
      · intro _; rw [hs]
    · have hstate : res.state.m_aNormalData = nd ∧
          ∃ tl, res.calls = .CreateBuffer (r.vertexBufferCall L) :: g ++
            .CreateBuffer (r.normalBufferCall L nd) :: tl := by
        rcases hrest with ⟨-, -, hs, hc⟩ | ⟨-, -, -, hs, hc⟩ | ⟨-, -, -, hs, hc⟩ <;>
        · rw [hs, hc]; exact ⟨rfl, _, rfl⟩
      obtain ⟨hnd, tl, hc⟩ := hstate
      have hhead : res.requests.head? = some (r.vertexBufferCall L) := by
        unfold InitializeResult.requests; rw [hc]; rfl
      have hmem : Call.calculateNormalMapVectors ∈ res.calls ↔
          g = [.calculateNormalMapVectors] := by
        rw [hc]
        rcases hgate with ⟨-, rfl, -⟩ | ⟨-, rfl, -⟩
        · have : ∀ l : List (Call F), (∀ c ∈ l, ∃ q, c = .CreateBuffer q) →
              Call.calculateNormalMapVectors ∉ l := by
            intro l hl hm
            obtain ⟨q, hq⟩ := hl _ hm
            cases hq
          have htl : ∀ c ∈ tl, ∃ q, c = Call.CreateBuffer q := by
            rcases hrest with ⟨-, -, -, hc2⟩ | ⟨-, -, -, -, hc2⟩ | ⟨-, -, -, -, hc2⟩ <;>
            · rw [hc] at hc2
              simp only [List.nil_append, List.cons_append, List.cons.injEq, true_and] at hc2
              subst hc2
              simp
          constructor
          · intro hm
            simp only [List.cons_append, List.nil_append, List.mem_cons, reduceCtorEq,
              false_or] at hm
            exact absurd hm (this tl htl)
          · intro he
            cases he
        · simp
      rw [hnd]
      refine ⟨hhead, ?_, ?_, ?_⟩
      · rw [hmem]
        rcases hgate with ⟨hng, rfl, -⟩ | ⟨hg, rfl, -⟩
        · simp only [List.nil_eq, List.cons_ne_self, false_iff, not_and, reduceCtorEq]
          intro _ ht he
          exact hng ⟨ht, he⟩
        · simp only [true_iff]
          exact ⟨h1, hg.1, hg.2⟩
      · rw [hmem]
        intro hg
        rcases hgate with ⟨-, e, -⟩ | ⟨-, -, e⟩
        · rw [e] at hg; cases hg
        · exact e
      · rw [hmem]
        intro hg
        rcases hgate with ⟨-, -, e⟩ | ⟨-, e, -⟩
        · exact e
        · exact absurd e hg
  · simp [Renderable.HasTexture, Renderable.GetNumMaterials, List.length_pos]

/-- The textured quad with an empty tangent store passes the gate: the generator is
called and the store afterwards is the one it produces. -/
theorem initialize_gating_witness :
    (∀ k ∈ quadTextured.indices, k < quadTextured.vertices.length) ∧
    ∃ res, Renderable.initialize exampleLayout ratMath willingDevice quadTextured = some res ∧
      Call.calculateNormalMapVectors ∈ res.calls ∧
      (quadTextured.calculateNormalMapVectors ratMath).map (fun s => s.m_aNormalData)
        = some res.state.m_aNormalData := by
  refine ⟨by decide, ?_⟩
  obtain ⟨res, h⟩ :=
    (initialize_gating exampleLayout ratMath willingDevice quadTextured).2.2 (by decide)
  have hg := (initialize_gating exampleLayout ratMath willingDevice quadTextured).1 res h
  have hmem := hg.2.1.mpr ⟨rfl, rfl, rfl⟩
  exact ⟨res, h, hmem, hg.2.2.1 hmem⟩

/-! ## Contents of the normal buffer -/

/-- C8, at the failing input. The quad has four vertices and no material; the routine
reaches the normal-buffer step and requests a buffer of four `NormalData` records, and
the tangent data it hands over as initial contents has no entry at all. -/
theorem initialize_normal_buffer_contents_untextured :
    quad.HasTexture = false ∧ quad.GetNumVertices = 4 ∧
    ∃ res, Renderable.initialize exampleLayout ratMath willingDevice quad = some res ∧
      res.hr = S_OK ∧
      ∃ c, res.requests[1]? = some c ∧ c.ppBuffer = .m_normalBuffer ∧
        c.bd.ByteWidth = 4 * exampleLayout.sizeofNormalData ∧
        c.pInitialData = some (.normalData []) :=
  ⟨rfl, rfl, _, rfl, rfl, _, rfl, rfl, rfl, rfl⟩

/-! ## Length of the tangent store -/

/-- C9. NormalData length invariant: `len(NormalData) == 0 || len(NormalData) ==
vertexCount` holds after construction; every operation that returns preserves it and
the vertex count; the generator leaves exactly `vertexCount` entries whenever it
returns, and it returns for every index array whose indices are below the vertex
count, the empty one included. -/
theorem normalData_length_invariant {F M : Type} [Field F] [Mul M] [One M]
    (dx : DirectXMath F M) :
    (∀ (vertices : List (SimpleVertex F)) (indices : List Nat) (outputColor : XMFLOAT4 F),
      (Renderable.new vertices indices outputColor : Renderable F M).NormalDataInvariant) ∧
    (∀ (r r1 : Renderable F M) (op : Op F), Op.run dx r op = some r1 →
      r.NormalDataInvariant → r1.NormalDataInvariant ∧ r1.GetNumVertices = r.GetNumVertices) ∧
    (∀ r r1 : Renderable F M, r.calculateNormalMapVectors dx = some r1 →
      r1.m_aNormalData.length = r.GetNumVertices ∧ r1.GetNumVertices = r.GetNumVertices) ∧
    (∀ r : Renderable F M, (∀ k ∈ r.indices, k < r.vertices.length) →
      ∃ r1, r.calculateNormalMapVectors dx = some r1 ∧
        r1.m_aNormalData.length = r.GetNumVertices) ∧
    (∀ r : Renderable F M, r.indices = [] →
      ∃ r1, r.calculateNormalMapVectors dx = some r1 ∧
        r1.m_aNormalData.length = r.GetNumVertices) := by
  have hgen : ∀ r r1 : Renderable F M, r.calculateNormalMapVectors dx = some r1 →
      r1.m_aNormalData.length = r.GetNumVertices ∧ r1.GetNumVertices = r.GetNumVertices := by
    intro r r1 h
    refine ⟨calculateNormalMapVectors_length dx r r1 h, ?_⟩
    rw [calculateNormalMapVectors_frame dx r r1 h]
    rfl
  have hsome : ∀ r : Renderable F M, (∀ k ∈ r.indices, k < r.vertices.length) →
      ∃ r1, r.calculateNormalMapVectors dx = some r1 ∧
        r1.m_aNormalData.length = r.GetNumVertices := by
    intro r hidx
    obtain ⟨r1, h⟩ := calculateNormalMapVectors_isSome dx r hidx
    exact ⟨r1, h, (hgen r r1 h).1⟩
  refine ⟨fun _ _ _ => Or.inl rfl, ?_, hgen, hsome, ?_⟩
  · intro r r1 op hrun hinv
    cases op with
    | AddMaterial material =>
      simp only [Op.run, Option.some.injEq] at hrun
      subst hrun; exact ⟨hinv, rfl⟩
    | SetMaterialOfMesh i j =>
      simp only [Op.run, Option.map_eq_some'] at hrun
      obtain ⟨⟨hr, s⟩, hs, rfl⟩ := hrun
      by_cases hin : i < r.m_aMeshes.length ∧ j < r.m_aMaterials.length
      · rw [SetMaterialOfMesh_in_range r i j hin.1 hin.2] at hs
        cases hm : r.m_aMaterials[i]? with
        | none => rw [hm] at hs; simp at hs
        | some m =>
          rw [hm] at hs
          simp only [Option.some.injEq, Prod.mk.injEq] at hs
          obtain ⟨-, rfl⟩ := hs
          exact ⟨hinv, rfl⟩
      · rw [SetMaterialOfMesh_out_of_range r i j (by omega)] at hs
        simp only [Option.some.injEq, Prod.mk.injEq] at hs
        obtain ⟨-, rfl⟩ := hs
        exact ⟨hinv, rfl⟩
    | Initialize L pDevice =>
      simp only [Op.run, Option.map_eq_some'] at hrun
      obtain ⟨res, hres, rfl⟩ := hrun
      obtain ⟨hv, -, -, -, -, -, hnd⟩ := initialize_frame L dx pDevice r res hres
      have hcount : res.state.GetNumVertices = r.GetNumVertices := by
        simp only [Renderable.GetNumVertices, hv]
      refine ⟨?_, hcount⟩
      unfold Renderable.NormalDataInvariant at hinv ⊢
      rw [hcount]
      rcases hnd with e | e
      · rw [e]; exact hinv
      · simp only [Option.map_eq_some'] at e
        obtain ⟨r2, h2, e2⟩ := e
        rw [← e2]
        exact Or.inr (hgen r r2 h2).1
    | SetVertexShader vs =>
      simp only [Op.run, Option.some.injEq] at hrun
      subst hrun; exact ⟨hinv, rfl⟩
    | SetPixelShader ps =>
      simp only [Op.run, Option.some.injEq] at hrun
      subst hrun; exact ⟨hinv, rfl⟩
    | Transform t =>
      simp only [Op.run, Option.some.injEq] at hrun
      subst hrun
      cases t <;> exact ⟨hinv, rfl⟩
  · intro r he
    exact hsome r (by rw [he]; simp)

/-- An instance of C9: provisioning the textured quad returns and leaves a tangent store
that satisfies the invariant, with its four entries. -/
theorem normalData_length_invariant_witness :
    quadTextured.NormalDataInvariant ∧
    ∃ r1, Op.run ratMath quadTextured (.Initialize exampleLayout willingDevice) = some r1 ∧
      r1.NormalDataInvariant ∧ r1.GetNumVertices = quadTextured.GetNumVertices := by
  obtain ⟨res, h⟩ := initialize_isSome exampleLayout ratMath willingDevice quadTextured
    (Or.inr (Or.inr (calculateNormalMapVectors_isSome ratMath quadTextured (by decide))))
  have hrun : Op.run ratMath quadTextured (.Initialize exampleLayout willingDevice)
      = some res.state := by
    simp [Op.run, h]
  exact ⟨Or.inl rfl, res.state, hrun,
    (normalData_length_invariant ratMath).2.1 quadTextured res.state _ hrun (Or.inl rfl)⟩

/-! ## Transform composition -/

/-- Every transform call multiplies its delta matrix onto the world matrix from the
right and leaves the rest of the state alone. -/
theorem transform_world {F M : Type} [Mul M] (dx : DirectXMath F M) (r : Renderable F M)
    (t : Renderable.Transform F) :
    (r.transform dx t).GetWorldMatrix = r.GetWorldMatrix * t.delta dx := by
  cases t <;> rfl

theorem foldl_transform_world {F M : Type} [Monoid M] (dx : DirectXMath F M)
    (ts : List (Renderable.Transform F)) (r : Renderable F M) :
    (ts.foldl (Renderable.transform dx) r).GetWorldMatrix =
      (ts.map (Renderable.Transform.delta dx)).foldl (fun w d => w * d) r.GetWorldMatrix := by
  induction ts generalizing r with
  | nil => rfl
  | cons t ts ih =>
    rw [List.foldl_cons, ih, transform_world]
    rfl

/-- C10. Transform composition order: the world matrix is the identity after
construction; every transform call right-multiplies its delta matrix; after any finite
sequence of calls with delta matrices `d1 .. dn`, in call order, the world matrix of a
fresh renderable is `Identity * d1 * d2 * ... * dn`, which is the product `d1 * ... *
dn`; in particular `RotateX(a)` then `Translate(v)` gives `RotationX(a) *
Translation(v)`. The matrix product is any associative product with identity. -/
theorem world_matrix_composition {F M : Type} [Monoid M] (dx : DirectXMath F M) :
    (∀ (vertices : List (SimpleVertex F)) (indices : List Nat) (outputColor : XMFLOAT4 F),
      (Renderable.new vertices indices outputColor : Renderable F M).GetWorldMatrix = 1) ∧
    (∀ (r : Renderable F M) (t : Renderable.Transform F),
      (r.transform dx t).GetWorldMatrix = r.GetWorldMatrix * t.delta dx) ∧
    (∀ (vertices : List (SimpleVertex F)) (indices : List Nat) (outputColor : XMFLOAT4 F)
      (ts : List (Renderable.Transform F)),
      (ts.foldl (Renderable.transform dx)
          (Renderable.new vertices indices outputColor : Renderable F M)).GetWorldMatrix =
        (ts.map (Renderable.Transform.delta dx)).foldl (fun w d => w * d) 1 ∧
      (ts.foldl (Renderable.transform dx)
          (Renderable.new vertices indices outputColor : Renderable F M)).GetWorldMatrix =
        (ts.map (Renderable.Transform.delta dx)).prod) ∧
    (∀ (vertices : List (SimpleVertex F)) (indices : List Nat) (outputColor : XMFLOAT4 F)
      (angle : F) (offset : XMFLOAT4 F),
      (((Renderable.new vertices indices outputColor : Renderable F M).RotateX dx
          angle).Translate dx offset).GetWorldMatrix =
        dx.XMMatrixRotationX angle * dx.XMMatrixTranslationFromVector offset) := by
  refine ⟨fun _ _ _ => rfl, transform_world dx, ?_, ?_⟩
  · intro vertices indices outputColor ts
    have h := foldl_transform_world dx ts
      (Renderable.new vertices indices outputColor : Renderable F M)
    refine ⟨h, ?_⟩
    rw [h, List.prod_eq_foldl]
    rfl
  · intro vertices indices outputColor angle offset
    show (1 : M) * dx.XMMatrixRotationX angle * dx.XMMatrixTranslationFromVector offset = _
    rw [one_mul]

/-- With symbolic matrices the order of the calls is visible: `RotateX` then `Translate`
on a fresh renderable gives the rotation followed by the translation, and this differs
from the translation followed by the rotation. -/
theorem world_matrix_call_order :
    (((Renderable.new [] [] ⟨1, 1, 1, 1⟩ : Renderable ℚ (FreeMonoid (Fin 6))).RotateX
        symbolicMath 0).Translate symbolicMath ⟨1, 0, 0, 0⟩).GetWorldMatrix =
      symbolicMath.XMMatrixRotationX 0 * symbolicMath.XMMatrixTranslationFromVector ⟨1, 0, 0, 0⟩ ∧
    symbolicMath.XMMatrixRotationX 0 * symbolicMath.XMMatrixTranslationFromVector ⟨1, 0, 0, 0⟩ ≠
      symbolicMath.XMMatrixTranslationFromVector ⟨1, 0, 0, 0⟩ * symbolicMath.XMMatrixRotationX 0 := by
  refine ⟨?_, ?_⟩
  · show (1 : FreeMonoid (Fin 6)) * symbolicMath.XMMatrixRotationX 0 *
      symbolicMath.XMMatrixTranslationFromVector ⟨1, 0, 0, 0⟩ = _
    rw [one_mul]
  · intro h
    have := congrArg FreeMonoid.toList h
    simp [symbolicMath] at this

/-! ## Access safety of the binding -/

/-- A pair that passes the bounds check: the mesh table access is inside the table, and
`SetMaterialOfMesh` has no result exactly when the mesh index is not an index of the
material table, the table it reads to test for a normal map. -/
theorem SetMaterialOfMesh_eq_none_iff {F M : Type} (r : Renderable F M)
    (uMeshIndex uMaterialIndex : Nat)
    (h1 : uMeshIndex < r.m_aMeshes.length) (h2 : uMaterialIndex < r.m_aMaterials.length) :
    (r.m_aMeshes[uMeshIndex]?).isSome = true ∧
    (r.SetMaterialOfMesh uMeshIndex uMaterialIndex = none ↔
      r.m_aMaterials.length ≤ uMeshIndex) := by
  refine ⟨by simp [List.getElem?_eq_getElem h1], ?_⟩
  rw [SetMaterialOfMesh_in_range r uMeshIndex uMaterialIndex h1 h2]
  by_cases h3 : uMeshIndex < r.m_aMaterials.length
  · rw [List.getElem?_eq_getElem h3]
    simp only [reduceCtorEq, false_iff, not_le]
    exact h3
  · rw [List.getElem?_eq_none (Nat.le_of_not_lt h3)]
    simp only [true_iff]
    exact Nat.le_of_not_lt h3

/-- C11, at the failing input. Three meshes and two materials, `SetMaterialOfMesh(2, 1)`:
the pair passes the bounds check and the mesh table access is inside the mesh table,
but the material table lookup that tests for a normal map is made at the mesh index 2,
outside the two-entry material table, and the call has no result. -/
theorem SetMaterialOfMesh_material_lookup_out_of_bounds :
    (2 < quadThreeMeshes.GetNumMeshes ∧ 1 < quadThreeMeshes.GetNumMaterials) ∧
    (quadThreeMeshes.m_aMeshes[2]?).isSome = true ∧
    (quadThreeMeshes.m_aMaterials[1]?).isSome = true ∧
    quadThreeMeshes.GetNumMaterials ≤ 2 ∧
    quadThreeMeshes.m_aMaterials[2]? = none ∧
    quadThreeMeshes.SetMaterialOfMesh 2 1 = none := by
  refine ⟨by decide, by decide, by decide, by decide, by decide, ?_⟩
  exact ((SetMaterialOfMesh_eq_none_iff quadThreeMeshes 2 1 (by decide) (by decide)).2).mpr
    (by decide)

/-! ## Access safety of the tangent generator -/

/-- One iteration reads the index array at `i * 3`, `i * 3 + 1` and `i * 3 + 2` only: two
index arrays that agree there give the same iteration. -/
theorem face_congr {F : Type} [Field F] (sqrt : F → F) (aVertices : List (SimpleVertex F))
    (aIndices bIndices : List Nat) (nd : List (NormalData F)) (i : Nat)
    (h0 : aIndices[i * 3]? = bIndices[i * 3]?)
    (h1 : aIndices[i * 3 + 1]? = bIndices[i * 3 + 1]?)
    (h2 : aIndices[i * 3 + 2]? = bIndices[i * 3 + 2]?) :
    calculateNormalMapVectors.face sqrt aVertices aIndices nd i =
      calculateNormalMapVectors.face sqrt aVertices bIndices nd i := by
  unfold calculateNormalMapVectors.face
  rw [h0, h1, h2]

/-- Two loop bodies that agree on every element of the list give the same loop. -/
theorem foldlM_option_congr {α β : Type} (f g : β → α → Option β) (l : List α)
    (h : ∀ i ∈ l, ∀ b, f b i = g b i) (b : β) :
    l.foldlM f b = l.foldlM g b := by
  induction l generalizing b with
  | nil => rfl
  | cons a l ih =>
    rw [List.foldlM_cons, List.foldlM_cons, h a (List.mem_cons_self a l) b]
    cases g b a with
    | none => rfl
    | some b1 => exact ih (fun i hi => h i (List.mem_cons_of_mem a hi)) b1

/-- Replacing what follows the first `m` elements of a list keeps the lookups below
`m`. -/
theorem getElem?_take_append {α : Type} (l tail : List α) (m k : Nat) (hm : m ≤ l.length)
    (hk : k < m) : (l.take m ++ tail)[k]? = l[k]? := by
  rw [List.getElem?_append_left (by simp; omega), List.getElem?_take]
  simp [hk]

/-- The tangent store that the generator leaves depends on the index array only through
the number of whole triangles and the indices of these triangles. -/
theorem calculateNormalMapVectors_indices_congr {F M : Type} [Field F] (dx : DirectXMath F M)
    (r : Renderable F M) (bIndices : List Nat)
    (hfaces : bIndices.length / 3 = r.indices.length / 3)
    (hagree : ∀ k, k < r.indices.length / 3 * 3 → bIndices[k]? = r.indices[k]?) :
    (({ r with indices := bIndices } : Renderable F M).calculateNormalMapVectors dx).map
        (fun s => s.m_aNormalData) =
      (r.calculateNormalMapVectors dx).map (fun s => s.m_aNormalData) := by
  simp only [Renderable.calculateNormalMapVectors, Renderable.GetNumIndices,
    Renderable.GetNumVertices, Renderable.getVertices, Renderable.getIndices, hfaces,
    Option.map_map]
  congr 1
  apply foldlM_option_congr
  intro i hi nd
  have hi3 : i < r.indices.length / 3 := List.mem_range.mp hi
  exact face_congr dx.sqrt r.vertices _ _ nd i (hagree _ (by omega)) (hagree _ (by omega))
    (hagree _ (by omega))

/-- The tangent store that the generator leaves does not depend on the indices after
the last whole triangle. -/
theorem calculateNormalMapVectors_trailing {F M : Type} [Field F] (dx : DirectXMath F M)
    (r : Renderable F M) (tail : List Nat) (ht : tail.length = r.GetNumIndices % 3) :
    (({ r with indices := r.indices.take (r.GetNumIndices / 3 * 3) ++ tail } :
        Renderable F M).calculateNormalMapVectors dx).map (fun s => s.m_aNormalData) =
      (r.calculateNormalMapVectors dx).map (fun s => s.m_aNormalData) := by
  simp only [Renderable.GetNumIndices] at ht ⊢
  have hm : r.indices.length / 3 * 3 ≤ r.indices.length := Nat.div_mul_le_self _ _
  have hlen : (r.indices.take (r.indices.length / 3 * 3) ++ tail).length = r.indices.length := by
    rw [List.length_append, List.length_take, ht, Nat.min_eq_left hm]
    have := Nat.div_add_mod r.indices.length 3
    omega
  exact calculateNormalMapVectors_indices_congr dx r _ (by rw [hlen])
    (fun k hk => getElem?_take_append _ _ _ _ hm hk)

/-- C12. Access safety of the tangent generator: when every element of the index array
is below the vertex count, the generator returns, so none of its accesses is outside
its array, for every index count; it leaves `vertexCount` entries; each of the
`floor(indexCount / 3)` triangles it processes reads the index array at three positions
below the index count, the vertex array at three positions inside it and writes the
store at three positions below its length; and the indices after the last whole
triangle are never read: whatever stands in their place, the store is the same. -/
theorem calculateNormalMapVectors_access_safe {F M : Type} [Field F] (dx : DirectXMath F M)
    (r : Renderable F M) (hidx : ∀ k ∈ r.indices, k < r.vertices.length) :
    ∃ r1, r.calculateNormalMapVectors dx = some r1 ∧
      r1.m_aNormalData.length = r.GetNumVertices ∧
      (∀ i, i < r.GetNumIndices / 3 →
        i * 3 + 2 < r.GetNumIndices ∧
        ∃ i0 i1 i2, r.indices[i * 3]? = some i0 ∧ r.indices[i * 3 + 1]? = some i1 ∧
          r.indices[i * 3 + 2]? = some i2 ∧
          (r.vertices[i0]?).isSome = true ∧ (r.vertices[i1]?).isSome = true ∧
          (r.vertices[i2]?).isSome = true ∧
          i0 < r1.m_aNormalData.length ∧ i1 < r1.m_aNormalData.length ∧
          i2 < r1.m_aNormalData.length) ∧
      (∀ tail : List Nat, tail.length = r.GetNumIndices % 3 →
        (({ r with indices := r.indices.take (r.GetNumIndices / 3 * 3) ++ tail } :
          Renderable F M).calculateNormalMapVectors dx).map (fun s => s.m_aNormalData) =
        some r1.m_aNormalData) := by
  obtain ⟨r1, h⟩ := calculateNormalMapVectors_isSome dx r hidx
  have hl := calculateNormalMapVectors_length dx r r1 h
  refine ⟨r1, h, hl, ?_, ?_⟩
  · intro i hi
    simp only [Renderable.GetNumIndices] at hi ⊢
    have hi2 : i * 3 + 2 < r.indices.length := by omega
    obtain ⟨i0, i1, i2, v1, v2, v3, e0, e1, e2, f0, f1, f2, b0, b1, b2, -⟩ :=
      faceBasis_isSome dx.sqrt r.vertices r.indices i hi2 hidx
    exact ⟨hi2, i0, i1, i2, e0, e1, e2, by simp [f0], by simp [f1], by simp [f2],
      by omega, by omega, by omega⟩
  · intro tail ht
    rw [calculateNormalMapVectors_trailing dx r tail ht, h]
    rfl

/-- The hypothesis of C12 holds for the quad with seven indices, a count that is not a
multiple of 3, and so does its conclusion. -/
theorem calculateNormalMapVectors_access_safe_witness :
    (∀ k ∈ quadSeven.indices, k < quadSeven.vertices.length) ∧
    quadSeven.GetNumIndices % 3 = 1 ∧
    ∃ r1, quadSeven.calculateNormalMapVectors ratMath = some r1 ∧
      r1.m_aNormalData.length = quadSeven.GetNumVertices ∧
      (∀ i, i < quadSeven.GetNumIndices / 3 →
        i * 3 + 2 < quadSeven.GetNumIndices ∧
        ∃ i0 i1 i2, quadSeven.indices[i * 3]? = some i0 ∧
          quadSeven.indices[i * 3 + 1]? = some i1 ∧
          quadSeven.indices[i * 3 + 2]? = some i2 ∧
          (quadSeven.vertices[i0]?).isSome = true ∧ (quadSeven.vertices[i1]?).isSome = true ∧
          (quadSeven.vertices[i2]?).isSome = true ∧
          i0 < r1.m_aNormalData.length ∧ i1 < r1.m_aNormalData.length ∧
          i2 < r1.m_aNormalData.length) ∧
      (∀ tail : List Nat, tail.length = quadSeven.GetNumIndices % 3 →
        (({ quadSeven with
            indices := quadSeven.indices.take (quadSeven.GetNumIndices / 3 * 3) ++ tail } :
          Renderable ℚ Unit).calculateNormalMapVectors ratMath).map
            (fun s => s.m_aNormalData) =
        some r1.m_aNormalData) :=
  ⟨by decide, by decide, calculateNormalMapVectors_access_safe ratMath quadSeven (by decide)⟩

/-- The trailing indices are not read even when they are not indices of a vertex: the
quad with the two trailing indices 1 and 9 gets the tangent store of the quad. -/
theorem calculateNormalMapVectors_quadTrailing :
    quadTrailing.GetNumIndices = 8 ∧ quadTrailing.indices[7]? = some 9 ∧
    quadTrailing.GetNumVertices = 4 ∧
    (quadTrailing.calculateNormalMapVectors ratMath).map (fun s => s.m_aNormalData) =
      (quad.calculateNormalMapVectors ratMath).map (fun s => s.m_aNormalData) := by
  refine ⟨rfl, rfl, rfl, ?_⟩
  exact calculateNormalMapVectors_indices_congr ratMath quad quadTrailing.indices (by decide)
    (by decide)

end library
